import Mathlib

/-!
# ORCA-Math: vectors, row/column views and `dot`

A shallow embedding of `src/ORCA/Vec.h` and of the check switches of
`src/ORCAMath/ORCAMath.h`.

* `index_t` is modelled by `Int` (no property proved here depends on
  wrap-around).
* A heap buffer (`T* _mat`) is modelled by the list of its cells; a pointer
  `_mat + k` is modelled by the offset `k`.  Dereferencing an offset outside
  the buffer is C++ undefined behaviour and is recorded as
  `Outcome.undefined`.
* A C++ `throw` is recorded as `Outcome.raise`.
* Member functions take the object state `this` explicitly and, when they
  mutate it, return the new state.
* The sticky-compute mask is compiled out (`ORCAMath.h` always defines
  `ORCA_DISABLE_STICKY_COMPUTE`), so it is not part of the state.
-/

namespace ORCA

/-! ## Errors, outcomes, configuration -/

/-- Exceptions thrown in `Vec.h` (`ORCAExcept::...`). -/
inductive ORCAExcept
  | OutOfBoundsError
  | EmptyElementError
  | BadDimensionsError
  deriving DecidableEq, Repr

/-- Result of running a piece of the library: a value, a thrown exception, or
undefined behaviour (an access outside the allocated buffer). -/
inductive Outcome (α : Type)
  | ok (a : α)
  | raise (e : ORCAExcept)
  | undefined
  deriving DecidableEq, Repr

namespace Outcome

/-- Sequencing of two computations: an exception or undefined behaviour in the
first one ends the run. -/
def bind {α β : Type} (x : Outcome α) (f : α → Outcome β) : Outcome β :=
  match x with
  | ok a => f a
  | raise e => raise e
  | undefined => undefined

instance : Monad Outcome where
  pure := Outcome.ok
  bind := Outcome.bind

end Outcome

/-- The preprocessor switches read by `ORCAMath.h` and `Vec.h`
(`true` = the macro is defined). -/
structure Config where
  ORCA_DISABLE_ERROR_CHECKS : Bool
  ORCA_DISABLE_BOUNDS_CHECKS : Bool
  ORCA_DISABLE_NULL_CHECKS : Bool
  ORCA_DISABLE_DIMENSIONS_CHECKS : Bool
  ORCA_DISABLE_EMPTY_CHECKS : Bool
  deriving DecidableEq, Repr

/-- The `#ifdef ORCA_DISABLE_ERROR_CHECKS` block of `ORCAMath.h`: the master
switch defines the four individual switches. -/
def ORCAMath_h (d : Config) : Config :=
  if d.ORCA_DISABLE_ERROR_CHECKS then
    { ORCA_DISABLE_ERROR_CHECKS := true
      ORCA_DISABLE_BOUNDS_CHECKS := true
      ORCA_DISABLE_NULL_CHECKS := true
      ORCA_DISABLE_DIMENSIONS_CHECKS := true
      ORCA_DISABLE_EMPTY_CHECKS := true }
  else d

/-- The build in which no switch is defined: every check is compiled in. -/
def allChecks : Config :=
  ORCAMath_h
    { ORCA_DISABLE_ERROR_CHECKS := false
      ORCA_DISABLE_BOUNDS_CHECKS := false
      ORCA_DISABLE_NULL_CHECKS := false
      ORCA_DISABLE_DIMENSIONS_CHECKS := false
      ORCA_DISABLE_EMPTY_CHECKS := false }

/-! ## Memory -/

/-- Read of the cell at offset `p` of a buffer (`*(_mat + p)`). -/
def load {T : Type} (buf : List T) (p : Int) : Outcome T :=
  if 0 ≤ p ∧ p < (buf.length : Int) then
    match buf.get? p.toNat with
    | some x => Outcome.ok x
    | none => Outcome.undefined
  else Outcome.undefined

/-- Write of the cell at offset `p` of a buffer (`*(_mat + p) = x`). -/
def store {T : Type} (buf : List T) (p : Int) (x : T) : Outcome (List T) :=
  if 0 ≤ p ∧ p < (buf.length : Int) then Outcome.ok (buf.set p.toNat x)
  else Outcome.undefined

/-- Fresh buffer returned by `malloc(sizeof(T) * n)`: `n` cells whose contents
are whatever the allocator left there (`junk`); a negative request yields no
usable cell. -/
def malloc {T : Type} (junk : Nat → T) (n : Int) : List T :=
  (List.range n.toNat).map junk

/-- Iterations of `for (i = lo; ...; ++i) body`, `k` of them remaining. -/
def forLoop {σ : Type} (body : Int → σ → Outcome σ) : Nat → Int → σ → Outcome σ
  | 0, _, s => Outcome.ok s
  | k + 1, i, s => (body i s).bind (fun s1 => forLoop body k (i + 1) s1)

/-- The loop `for (i = lo; i < hi; ++i) body`, where `hi` is not changed by the
body: it runs `hi - lo` times (not at all when `hi ≤ lo`). -/
def forRange {σ : Type} (lo hi : Int) (body : Int → σ → Outcome σ) (s : σ) : Outcome σ :=
  forLoop body (hi - lo).toNat lo s

/-! ## Data model -/

/-- Fields of `Mat<T>` used by `Vec.h`: the buffer and the shape. -/
structure Mat (T : Type) where
  _mat : List T
  _n_rows : Int
  _n_cols : Int
  deriving DecidableEq, Repr

/-- State of a `Vec<T>` object (also of `RowVec<T>` and `ColVec<T>`, which
add no field): a `Mat<T>` plus `_n_elems`. -/
structure Vec (T : Type) extends Mat T where
  _n_elems : Int
  deriving DecidableEq, Repr

variable {T : Type}

/-- Member `Vec::length()`. -/
def Vec.length (this : Vec T) : Int := this._n_elems

/-- Member `Vec::_allocate(n_elems)`.  The emptiness test reads the member
`_n_elems` of the object (its value before the call), not the parameter
`n_elems`. -/
def Vec._allocate (cfg : Config) (junk : Nat → T) (this : Vec T) (n_elems : Int) :
    Outcome (Vec T) :=
  if cfg.ORCA_DISABLE_EMPTY_CHECKS = false ∧ this._n_elems < 0 then
    Outcome.raise ORCAExcept.EmptyElementError
  else
    Outcome.ok
      { _mat := malloc junk n_elems
        _n_elems := n_elems
        _n_cols := n_elems
        _n_rows := 1 }

/-- Member `Vec::_address(elem)`: the offset of the requested cell from `_mat`. -/
def Vec._address (cfg : Config) (this : Vec T) (elem : Int) : Outcome Int :=
  if cfg.ORCA_DISABLE_BOUNDS_CHECKS = false ∧ (elem < 0 ∨ elem > this.length) then
    Outcome.raise ORCAExcept.OutOfBoundsError
  else Outcome.ok elem

/-- Member `Vec::set(index, elem)`. -/
def Vec.set (cfg : Config) (this : Vec T) (index : Int) (elem : T) : Outcome (Vec T) :=
  (Vec._address cfg this index).bind fun p =>
  (store this._mat p elem).bind fun buf =>
  Outcome.ok { this with _mat := buf }

/-- Member `Vec::set(row, col, elem)`. -/
def Vec.set2 (cfg : Config) (this : Vec T) (row col : Int) (elem : T) : Outcome (Vec T) :=
  if cfg.ORCA_DISABLE_BOUNDS_CHECKS = false ∧ row ≠ 0 then
    Outcome.raise ORCAExcept.OutOfBoundsError
  else
    (Vec._address cfg this col).bind fun p =>
    (store this._mat p elem).bind fun buf =>
    Outcome.ok { this with _mat := buf }

/-- Member `Vec::at(index)`. -/
def Vec.at (cfg : Config) (this : Vec T) (index : Int) : Outcome T :=
  (Vec._address cfg this index).bind fun p => load this._mat p

/-- Member `Vec::at(row, col)`. -/
def Vec.at2 (cfg : Config) (this : Vec T) (row col : Int) : Outcome T :=
  if cfg.ORCA_DISABLE_BOUNDS_CHECKS = false ∧ row ≠ 0 then
    Outcome.raise ORCAExcept.OutOfBoundsError
  else
    (Vec._address cfg this col).bind fun p => load this._mat p


/-- Body of member `Vec::sum()`.  The call `this->at(i)` is virtual: `vat` is
the override selected by the dynamic type of the object. -/
def Vec.sum_virtual [Zero T] [Add T] (vat : Int → Outcome T) (length : Int) : Outcome T :=
  forRange 0 length (fun i result => (vat i).bind fun x => Outcome.ok (result + x)) 0

/-- Body of member `Vec::prod()`, with the virtual `at` as for `Vec.sum_virtual`. -/
def Vec.prod_virtual [One T] [Mul T] (vat : Int → Outcome T) (length : Int) : Outcome T :=
  forRange 0 length (fun i result => (vat i).bind fun x => Outcome.ok (result * x)) 1

/-- Member `Vec::sum()` on an object whose dynamic type is `Vec` or `RowVec`
(`RowVec` overrides nothing). -/
def Vec.sum [Zero T] [Add T] (cfg : Config) (this : Vec T) : Outcome T :=
  Vec.sum_virtual (Vec.at cfg this) this.length

/-- Member `Vec::prod()` on an object whose dynamic type is `Vec` or `RowVec`. -/
def Vec.prod [One T] [Mul T] (cfg : Config) (this : Vec T) : Outcome T :=
  Vec.prod_virtual (Vec.at cfg this) this.length

/-- Free function `sum(Vec<T> _vec)`: the argument is passed by value as a
`Vec<T>`. -/
def sum [Zero T] [Add T] (cfg : Config) (_vec : Vec T) : Outcome T :=
  Vec.sum cfg _vec

/-- Free function `prod(Vec<T> _vec)`. -/
def prod [One T] [Mul T] (cfg : Config) (_vec : Vec T) : Outcome T :=
  Vec.prod cfg _vec

/-- Constructor `Vec(std::initializer_list<T>)`.  `this` is the object before
the constructor body runs (its members are not initialised); inside the
constructor the virtual calls reach `Vec::_allocate` and `Vec::set`. -/
def Vec.Vec_initializer_list (cfg : Config) (junk : Nat → T) (this : Vec T)
    (_casted_values : List T) : Outcome (Vec T) :=
  (Vec._allocate cfg junk this (_casted_values.length : Int)).bind fun this1 =>
  forRange 0 this1._n_elems
    (fun i obj => (load _casted_values i).bind fun x => Vec.set cfg obj i x) this1

/-- Casted constructor `Vec(Vec<T1> _casted)`; `conv` is the conversion from
`T1` to `T` applied when the element is passed to `set`. -/
def Vec.Vec_cast {T1 : Type} (conv : T1 → T) (cfg : Config) (junk : Nat → T)
    (this : Vec T) (_casted : Vec T1) : Outcome (Vec T) :=
  (Vec._allocate cfg junk this _casted.length).bind fun this1 =>
  forRange 0 _casted.length
    (fun i obj => (Vec.at cfg _casted i).bind fun x => Vec.set cfg obj i (conv x)) this1

/-- Casted constructor `Vec(Vec<T1>* _casted)`, for a pointer to an owning
vector (whose `at` is `Vec::at`, or the identical `ColVec::at`). -/
def Vec.Vec_cast_ptr {T1 : Type} (conv : T1 → T) (cfg : Config) (junk : Nat → T)
    (this : Vec T) (_casted : Vec T1) : Outcome (Vec T) :=
  (Vec._allocate cfg junk this _casted.length).bind fun this1 =>
  forRange 0 _casted.length
    (fun i obj => (Vec.at cfg _casted i).bind fun x => Vec.set cfg obj i (conv x)) this1

/-! ### `RowVec` -/

/-- Constructor `RowVec(int elements)`; `RowVec` does not override
`_allocate`. -/
def RowVec.RowVec_elements (cfg : Config) (junk : Nat → T) (this : Vec T) (elements : Int) :
    Outcome (Vec T) :=
  Vec._allocate cfg junk this elements

/-- Constructor `RowVec(std::initializer_list<T>)`: delegates to the `Vec`
constructor. -/
def RowVec.RowVec_initializer_list (cfg : Config) (junk : Nat → T) (this : Vec T)
    (_casted_values : List T) : Outcome (Vec T) :=
  Vec.Vec_initializer_list cfg junk this _casted_values

/-- Casted constructor `RowVec(Vec<T1> _casted)`. -/
def RowVec.RowVec_cast {T1 : Type} (conv : T1 → T) (cfg : Config) (junk : Nat → T)
    (this : Vec T) (_casted : Vec T1) : Outcome (Vec T) :=
  (Vec._allocate cfg junk this _casted.length).bind fun this1 =>
  forRange 0 _casted.length
    (fun i obj => (Vec.at cfg _casted i).bind fun x => Vec.set cfg obj i (conv x)) this1

/-- Casted constructor `RowVec(Vec<T1>* _casted)`. -/
def RowVec.RowVec_cast_ptr {T1 : Type} (conv : T1 → T) (cfg : Config) (junk : Nat → T)
    (this : Vec T) (_casted : Vec T1) : Outcome (Vec T) :=
  (Vec._allocate cfg junk this _casted.length).bind fun this1 =>
  forRange 0 _casted.length
    (fun i obj => (Vec.at cfg _casted i).bind fun x => Vec.set cfg obj i (conv x)) this1

/-! ### `ColVec` -/

/-- Member `ColVec::_allocate(_n_elems)`: here the parameter is itself called
`_n_elems`, so the emptiness test reads the requested count. -/
def ColVec._allocate (cfg : Config) (junk : Nat → T) (_this : Vec T) (_n_elems : Int) :
    Outcome (Vec T) :=
  if cfg.ORCA_DISABLE_EMPTY_CHECKS = false ∧ _n_elems < 0 then
    Outcome.raise ORCAExcept.EmptyElementError
  else
    Outcome.ok
      { _mat := malloc junk _n_elems
        _n_elems := _n_elems
        _n_cols := 1
        _n_rows := _n_elems }

/-- Member `ColVec::set(index, elem)`. -/
def ColVec.set (cfg : Config) (this : Vec T) (index : Int) (elem : T) : Outcome (Vec T) :=
  (Vec._address cfg this index).bind fun p =>
  (store this._mat p elem).bind fun buf =>
  Outcome.ok { this with _mat := buf }

/-- Member `ColVec::set(row, col, elem)`. -/
def ColVec.set2 (cfg : Config) (this : Vec T) (row col : Int) (elem : T) : Outcome (Vec T) :=
  if cfg.ORCA_DISABLE_BOUNDS_CHECKS = false ∧ col ≠ 0 then
    Outcome.raise ORCAExcept.OutOfBoundsError
  else
    (Vec._address cfg this row).bind fun p =>
    (store this._mat p elem).bind fun buf =>
    Outcome.ok { this with _mat := buf }

/-- Member `ColVec::at(index)`. -/
def ColVec.at (cfg : Config) (this : Vec T) (index : Int) : Outcome T :=
  (Vec._address cfg this index).bind fun p => load this._mat p

/-- Member `ColVec::at(row, col)`. -/
def ColVec.at2 (cfg : Config) (this : Vec T) (row col : Int) : Outcome T :=
  if cfg.ORCA_DISABLE_BOUNDS_CHECKS = false ∧ col ≠ 0 then
    Outcome.raise ORCAExcept.OutOfBoundsError
  else
    (Vec._address cfg this row).bind fun p => load this._mat p

/-- Member `Vec::sum()` on an object whose dynamic type is `ColVec`. -/
def ColVec.sum [Zero T] [Add T] (cfg : Config) (this : Vec T) : Outcome T :=
  Vec.sum_virtual (ColVec.at cfg this) this.length

/-- Member `Vec::prod()` on an object whose dynamic type is `ColVec`. -/
def ColVec.prod [One T] [Mul T] (cfg : Config) (this : Vec T) : Outcome T :=
  Vec.prod_virtual (ColVec.at cfg this) this.length

/-- Constructor `ColVec(int elements)`. -/
def ColVec.ColVec_elements (cfg : Config) (junk : Nat → T) (this : Vec T) (elements : Int) :
    Outcome (Vec T) :=
  ColVec._allocate cfg junk this elements

/-- Constructor `ColVec(std::initializer_list<T>)`: delegates to the `Vec`
constructor, which runs while the dynamic type is still `Vec`. -/
def ColVec.ColVec_initializer_list (cfg : Config) (junk : Nat → T) (this : Vec T)
    (_casted_values : List T) : Outcome (Vec T) :=
  Vec.Vec_initializer_list cfg junk this _casted_values

/-- Casted constructor `ColVec(Vec<T1> _casted)`. -/
def ColVec.ColVec_cast {T1 : Type} (conv : T1 → T) (cfg : Config) (junk : Nat → T)
    (this : Vec T) (_casted : Vec T1) : Outcome (Vec T) :=
  (ColVec._allocate cfg junk this _casted.length).bind fun this1 =>
  forRange 0 _casted.length
    (fun i obj => (Vec.at cfg _casted i).bind fun x => ColVec.set cfg obj i (conv x)) this1

/-- Casted constructor `ColVec(Vec<T1>* _casted)`. -/
def ColVec.ColVec_cast_ptr {T1 : Type} (conv : T1 → T) (cfg : Config) (junk : Nat → T)
    (this : Vec T) (_casted : Vec T1) : Outcome (Vec T) :=
  (ColVec._allocate cfg junk this _casted.length).bind fun this1 =>
  forRange 0 _casted.length
    (fun i obj => (Vec.at cfg _casted i).bind fun x => ColVec.set cfg obj i (conv x)) this1

/-! ### `dot` -/

/-- Free function `dot(Vec<T1> v1, Vec<T2> v2)`.  The length comparison is
guarded by `ORCA_DISABLE_BOUNDS_CHECKS`, as in the source.  The operands of
each product are read left to right. -/
def dot {T1 T2 T3 : Type} [HMul T1 T2 T3] [Add T3] (cfg : Config) (v1 : Vec T1) (v2 : Vec T2) :
    Outcome T3 :=
  if cfg.ORCA_DISABLE_EMPTY_CHECKS = false ∧ (v1.length = 0 ∨ v2.length = 0) then
    Outcome.raise ORCAExcept.EmptyElementError
  else if cfg.ORCA_DISABLE_BOUNDS_CHECKS = false ∧ v1.length ≠ v2.length then
    Outcome.raise ORCAExcept.BadDimensionsError
  else
    (Vec.at cfg v1 0).bind fun a0 =>
    (Vec.at cfg v2 0).bind fun b0 =>
    forRange 1 v1.length
      (fun i result =>
        (Vec.at cfg v1 i).bind fun a =>
        (Vec.at cfg v2 i).bind fun b =>
        Outcome.ok (result + a * b))
      (a0 * b0)

/-! ### `Mat` accessors and the row/column views -/

/-- Modelled from the spec: `Mat<T>::rows()` (`Mat.h` is not among the
sources); the row count of the matrix. -/
def Mat.rows (this : Mat T) : Int := this._n_rows

/-- Modelled from the spec: `Mat<T>::cols()` (`Mat.h` is not among the
sources); the column count of the matrix. -/
def Mat.cols (this : Mat T) : Int := this._n_cols

/-- Modelled from the spec: `Mat<T>::at(row, col)` (`Mat.h` is not among the
sources).  Section 4.1: linear-indexes into the buffer as `row*cols+col`; fails
with `OutOfBoundsError` when the linear index falls outside `[0, rows*cols)`;
the check is compiled out when bounds checking is disabled. -/
def Mat.at (cfg : Config) (this : Mat T) (row col : Int) : Outcome T :=
  if cfg.ORCA_DISABLE_BOUNDS_CHECKS = false ∧
      (row * this._n_cols + col < 0 ∨ row * this._n_cols + col ≥ this._n_rows * this._n_cols) then
    Outcome.raise ORCAExcept.OutOfBoundsError
  else load this._mat (row * this._n_cols + col)

/-- Modelled from the spec: `Mat<T>::set(row, col, value)` (`Mat.h` is not
among the sources), with the same indexing and check as `Mat.at`. -/
def Mat.set (cfg : Config) (this : Mat T) (row col : Int) (value : T) : Outcome (Mat T) :=
  if cfg.ORCA_DISABLE_BOUNDS_CHECKS = false ∧
      (row * this._n_cols + col < 0 ∨ row * this._n_cols + col ≥ this._n_rows * this._n_cols) then
    Outcome.raise ORCAExcept.OutOfBoundsError
  else
    (store this._mat (row * this._n_cols + col) value).bind fun buf =>
    Outcome.ok { this with _mat := buf }

/-- Target of the pointer member `_matrix` of a view. -/
inductive MatrixPtr
  /-- the matrix whose address the caller passed to the pointer constructor -/
  | parent
  /-- the by-value parameter of the value constructor, which is gone once the
  constructor returns -/
  | parameter_copy
  deriving DecidableEq, Repr

/-- State of a `Mat<T>::MatRow` object: the inherited `RowVec<T>` fields plus
`_matrix` and `_row`. -/
structure MatRow (T : Type) extends Vec T where
  _matrix : MatrixPtr
  _row : Int
  deriving DecidableEq, Repr

/-- State of a `Mat<T>::MatCol` object: the inherited `ColVec<T>` fields plus
`_matrix` and `_col`. -/
structure MatCol (T : Type) extends Vec T where
  _matrix : MatrixPtr
  _col : Int
  deriving DecidableEq, Repr

/-- Value constructor `MatRow(Mat<T> matrix, index_t row)`; `this` is the
object after the default base constructors (`_mat` is never assigned). -/
def MatRow.MatRow_value (this : Vec T) (matrix : Mat T) (row : Int) : MatRow T :=
  { _mat := this._mat
    _matrix := MatrixPtr.parameter_copy
    _row := row
    _n_elems := matrix.cols
    _n_cols := matrix.cols
    _n_rows := 1 }

/-- Pointer constructor `MatRow(Mat<T>* matrix, index_t row)`. -/
def MatRow.MatRow_ptr (this : Vec T) (matrix : Mat T) (row : Int) : MatRow T :=
  { _mat := this._mat
    _matrix := MatrixPtr.parent
    _row := row
    _n_elems := matrix.cols
    _n_cols := matrix.cols
    _n_rows := 1 }

/-- Member `MatRow::at(index)`; `parent` is the current state of the matrix
the view was built from. -/
def MatRow.at (cfg : Config) (this : MatRow T) (parent : Mat T) (index : Int) : Outcome T :=
  match this._matrix with
  | MatrixPtr.parent => Mat.at cfg parent this._row index
  | MatrixPtr.parameter_copy => Outcome.undefined

/-- Member `MatRow::at(row, col)`. -/
def MatRow.at2 (cfg : Config) (this : MatRow T) (parent : Mat T) (_row col : Int) : Outcome T :=
  match this._matrix with
  | MatrixPtr.parent => Mat.at cfg parent this._row col
  | MatrixPtr.parameter_copy => Outcome.undefined

/-- Member `set(index, elem)` of a `MatRow`: `MatRow` does not override it, so
this is `Vec::set` acting on the fields of the view itself.  The result pairs
the view with the (untouched) parent matrix. -/
def MatRow.set (cfg : Config) (this : MatRow T) (parent : Mat T) (index : Int) (elem : T) :
    Outcome (MatRow T × Mat T) :=
  (Vec.set cfg this.toVec index elem).bind fun v =>
  Outcome.ok ({ this with toVec := v }, parent)

/-- Value constructor `MatCol(Mat<T> matrix, index_t col)`. -/
def MatCol.MatCol_value (this : Vec T) (matrix : Mat T) (col : Int) : MatCol T :=
  { _mat := this._mat
    _matrix := MatrixPtr.parameter_copy
    _col := col
    _n_elems := matrix.rows
    _n_cols := 1
    _n_rows := matrix.cols }

/-- Pointer constructor `MatCol(Mat<T>* matrix, index_t col)`. -/
def MatCol.MatCol_ptr (this : Vec T) (matrix : Mat T) (col : Int) : MatCol T :=
  { _mat := this._mat
    _matrix := MatrixPtr.parent
    _col := col
    _n_elems := matrix.rows
    _n_cols := 1
    _n_rows := matrix.rows }

/-- Member `MatCol::at(index)`. -/
def MatCol.at (cfg : Config) (this : MatCol T) (parent : Mat T) (index : Int) : Outcome T :=
  match this._matrix with
  | MatrixPtr.parent => Mat.at cfg parent index this._col
  | MatrixPtr.parameter_copy => Outcome.undefined

/-- Member `MatCol::at(row, col)`: after the column test the parent is read
as `_matrix->at(_col, row)`. -/
def MatCol.at2 (cfg : Config) (this : MatCol T) (parent : Mat T) (row col : Int) : Outcome T :=
  if cfg.ORCA_DISABLE_BOUNDS_CHECKS = false ∧ col ≠ this._col then
    Outcome.raise ORCAExcept.OutOfBoundsError
  else
    match this._matrix with
    | MatrixPtr.parent => Mat.at cfg parent this._col row
    | MatrixPtr.parameter_copy => Outcome.undefined

/-- Member `set(index, elem)` of a `MatCol`: `MatCol` does not override it, so
this is `ColVec::set` acting on the fields of the view itself. -/
def MatCol.set (cfg : Config) (this : MatCol T) (parent : Mat T) (index : Int) (elem : T) :
    Outcome (MatCol T × Mat T) :=
  (ColVec.set cfg this.toVec index elem).bind fun v =>
  Outcome.ok ({ this with toVec := v }, parent)

/-- Member `Vec::sum()` on a row view (the virtual `at` is `MatRow::at`). -/
def MatRow.sum [Zero T] [Add T] (cfg : Config) (this : MatRow T) (parent : Mat T) : Outcome T :=
  Vec.sum_virtual (MatRow.at cfg this parent) this.toVec.length

/-- Member `Vec::prod()` on a row view. -/
def MatRow.prod [One T] [Mul T] (cfg : Config) (this : MatRow T) (parent : Mat T) : Outcome T :=
  Vec.prod_virtual (MatRow.at cfg this parent) this.toVec.length

/-- Member `Vec::sum()` on a column view (the virtual `at` is `MatCol::at`). -/
def MatCol.sum [Zero T] [Add T] (cfg : Config) (this : MatCol T) (parent : Mat T) : Outcome T :=
  Vec.sum_virtual (MatCol.at cfg this parent) this.toVec.length

/-- Member `Vec::prod()` on a column view. -/
def MatCol.prod [One T] [Mul T] (cfg : Config) (this : MatCol T) (parent : Mat T) : Outcome T :=
  Vec.prod_virtual (MatCol.at cfg this parent) this.toVec.length

/-- Owning vectors: the buffer holds exactly `length()` cells. -/
def Vec.Owns (this : Vec T) : Prop := (this._mat.length : Int) = this._n_elems

instance (this : Vec T) : Decidable this.Owns := by
  unfold Vec.Owns; exact inferInstance

/-- Matrices that own their storage: non-negative shape and a buffer of
`rows*cols` cells. -/
def Mat.Owns (this : Mat T) : Prop :=
  0 ≤ this._n_rows ∧ 0 ≤ this._n_cols ∧ (this._mat.length : Int) = this._n_rows * this._n_cols

/-- Run of a sequence of `m.set(row, col, value)` calls, in order. -/
def Mat.setAll (cfg : Config) : Mat T → List (Int × Int × T) → Outcome (Mat T)
  | m, [] => Outcome.ok m
  | m, (r, c, x) :: rest => (Mat.set cfg m r c x).bind fun m1 => Mat.setAll cfg m1 rest

/-- The vector object holding the cells `l` in row shape: the state the
initializer-list constructor produces (`Vec.Vec_initializer_list_ok`). -/
def Vec.ofCells (l : List T) : Vec T :=
  { _mat := l, _n_rows := 1, _n_cols := (l.length : Int), _n_elems := (l.length : Int) }

/-- The build in which only the master switch `ORCA_DISABLE_ERROR_CHECKS` is
defined: every check is compiled out. -/
def noChecks : Config :=
  ORCAMath_h
    { ORCA_DISABLE_ERROR_CHECKS := true
      ORCA_DISABLE_BOUNDS_CHECKS := false
      ORCA_DISABLE_NULL_CHECKS := false
      ORCA_DISABLE_DIMENSIONS_CHECKS := false
      ORCA_DISABLE_EMPTY_CHECKS := false }

/-- The build in which only `ORCA_DISABLE_DIMENSIONS_CHECKS` is defined. -/
def onlyDimensionsDisabled : Config :=
  ORCAMath_h
    { ORCA_DISABLE_ERROR_CHECKS := false
      ORCA_DISABLE_BOUNDS_CHECKS := false
      ORCA_DISABLE_NULL_CHECKS := false
      ORCA_DISABLE_DIMENSIONS_CHECKS := true
      ORCA_DISABLE_EMPTY_CHECKS := false }

/-- The build in which only `ORCA_DISABLE_BOUNDS_CHECKS` is defined. -/
def onlyBoundsDisabled : Config :=
  ORCAMath_h
    { ORCA_DISABLE_ERROR_CHECKS := false
      ORCA_DISABLE_BOUNDS_CHECKS := true
      ORCA_DISABLE_NULL_CHECKS := false
      ORCA_DISABLE_DIMENSIONS_CHECKS := false
      ORCA_DISABLE_EMPTY_CHECKS := false }

/-- The build in which only `ORCA_DISABLE_EMPTY_CHECKS` is defined. -/
def onlyEmptyDisabled : Config :=
  ORCAMath_h
    { ORCA_DISABLE_ERROR_CHECKS := false
      ORCA_DISABLE_BOUNDS_CHECKS := false
      ORCA_DISABLE_NULL_CHECKS := false
      ORCA_DISABLE_DIMENSIONS_CHECKS := false
      ORCA_DISABLE_EMPTY_CHECKS := true }

/-- Constructor `Vec(index_t elements) : Mat<T>(1, elements)`; `this` is the
object after the base constructor `Mat<T>(1, elements)` has run, and the body
overwrites the buffer and the shape through `Vec::_allocate`. -/
def Vec.Vec_elements (cfg : Config) (junk : Nat → T) (this : Vec T) (elements : Int) :
    Outcome (Vec T) :=
  Vec._allocate cfg junk this elements

/-! ### Runs with the state of the object at the end of the call -/

/-- End of a call of a mutating member function, with the state of the object
at that point: the call returned (`done`), an exception left the function
(`thrown`, with the object as the assignments executed before the `throw`
left it), or the behaviour is undefined. -/
inductive Run (σ : Type)
  | done (s : σ)
  | thrown (e : ORCAExcept) (s : σ)
  | undefined
  deriving DecidableEq, Repr

/-- What the caller observes of a run: the new state, the exception, or
undefined behaviour. -/
def Run.outcome {σ : Type} : Run σ → Outcome σ
  | Run.done s => Outcome.ok s
  | Run.thrown e _ => Outcome.raise e
  | Run.undefined => Outcome.undefined

/-- Member `Vec::set(index, elem)` with the state of the object at the end of
the call: the `const` member `_address` is evaluated first, and only when it
returns is the cell assigned. -/
def Vec.set_run (cfg : Config) (this : Vec T) (index : Int) (elem : T) : Run (Vec T) :=
  match Vec._address cfg this index with
  | Outcome.raise e => Run.thrown e this
  | Outcome.undefined => Run.undefined
  | Outcome.ok p =>
    match store this._mat p elem with
    | Outcome.ok buf => Run.done { this with _mat := buf }
    | Outcome.raise e => Run.thrown e this
    | Outcome.undefined => Run.undefined

/-- Member `Vec::set(row, col, elem)` with the state of the object at the end
of the call: the row test comes first, then `_address(col)`, then the
assignment. -/
def Vec.set2_run (cfg : Config) (this : Vec T) (row col : Int) (elem : T) : Run (Vec T) :=
  if cfg.ORCA_DISABLE_BOUNDS_CHECKS = false ∧ row ≠ 0 then
    Run.thrown ORCAExcept.OutOfBoundsError this
  else
    match Vec._address cfg this col with
    | Outcome.raise e => Run.thrown e this
    | Outcome.undefined => Run.undefined
    | Outcome.ok p =>
      match store this._mat p elem with
      | Outcome.ok buf => Run.done { this with _mat := buf }
      | Outcome.raise e => Run.thrown e this
      | Outcome.undefined => Run.undefined

/-- Member `ColVec::set(index, elem)` with the state of the object at the end
of the call. -/
def ColVec.set_run (cfg : Config) (this : Vec T) (index : Int) (elem : T) : Run (Vec T) :=
  match Vec._address cfg this index with
  | Outcome.raise e => Run.thrown e this
  | Outcome.undefined => Run.undefined
  | Outcome.ok p =>
    match store this._mat p elem with
    | Outcome.ok buf => Run.done { this with _mat := buf }
    | Outcome.raise e => Run.thrown e this
    | Outcome.undefined => Run.undefined

/-- Member `ColVec::set(row, col, elem)` with the state of the object at the
end of the call: the column test comes first, then `_address(row)`, then the
assignment. -/
def ColVec.set2_run (cfg : Config) (this : Vec T) (row col : Int) (elem : T) : Run (Vec T) :=
  if cfg.ORCA_DISABLE_BOUNDS_CHECKS = false ∧ col ≠ 0 then
    Run.thrown ORCAExcept.OutOfBoundsError this
  else
    match Vec._address cfg this row with
    | Outcome.raise e => Run.thrown e this
    | Outcome.undefined => Run.undefined
    | Outcome.ok p =>
      match store this._mat p elem with
      | Outcome.ok buf => Run.done { this with _mat := buf }
      | Outcome.raise e => Run.thrown e this
      | Outcome.undefined => Run.undefined

/-! ## General lemmas -/

@[simp] theorem Outcome.bind_ok {α β : Type} (a : α) (f : α → Outcome β) :
    (Outcome.ok a).bind f = f a := rfl

@[simp] theorem Outcome.bind_raise {α β : Type} (e : ORCAExcept) (f : α → Outcome β) :
    (Outcome.raise e : Outcome α).bind f = Outcome.raise e := rfl

@[simp] theorem Outcome.bind_undefined {α β : Type} (f : α → Outcome β) :
    (Outcome.undefined : Outcome α).bind f = Outcome.undefined := rfl

theorem load_ok (buf : List T) (d : T) (p : Int) (h0 : 0 ≤ p) (h1 : p < (buf.length : Int)) :
    load buf p = Outcome.ok (buf.getD p.toNat d) := by
  have hlt : p.toNat < buf.length := by omega
  simp [load, h0, h1, List.getD, List.getElem?_eq_getElem hlt]

theorem store_ok (buf : List T) (p : Int) (x : T) (h0 : 0 ≤ p) (h1 : p < (buf.length : Int)) :
    store buf p x = Outcome.ok (buf.set p.toNat x) := by
  simp [store, h0, h1]

theorem Vec._address_ok (cfg : Config) (v : Vec T) (i : Int) (h0 : 0 ≤ i) (h1 : i ≤ v.length) :
    Vec._address cfg v i = Outcome.ok i := by
  unfold Vec._address
  rw [if_neg]
  rintro ⟨_, h | h⟩ <;> omega

theorem Vec.at_ok (cfg : Config) (v : Vec T) (d : T) (hv : v.Owns) (i : Int) (h0 : 0 ≤ i)
    (h1 : i < v.length) : Vec.at cfg v i = Outcome.ok (v._mat.getD i.toNat d) := by
  unfold Vec.Owns at hv
  unfold Vec.length at h1
  have h2 : i ≤ v.length := by unfold Vec.length; omega
  rw [Vec.at, Vec._address_ok cfg v i h0 h2, Outcome.bind_ok]
  exact load_ok _ d i h0 (by omega)

theorem Vec.set_ok (cfg : Config) (v : Vec T) (x : T) (hv : v.Owns) (i : Int) (h0 : 0 ≤ i)
    (h1 : i < v.length) :
    Vec.set cfg v i x = Outcome.ok { v with _mat := v._mat.set i.toNat x } := by
  unfold Vec.Owns at hv
  unfold Vec.length at h1
  have h2 : i ≤ v.length := by unfold Vec.length; omega
  rw [Vec.set, Vec._address_ok cfg v i h0 h2, Outcome.bind_ok,
    store_ok _ i x h0 (by omega), Outcome.bind_ok]

theorem ColVec.at_eq_Vec_at : @ColVec.at T = @Vec.at T := rfl

theorem ColVec.set_eq_Vec_set : @ColVec.set T = @Vec.set T := rfl

/-- Loop rule: an invariant `P i s` that holds on entry and is carried by every
iteration holds on exit, and the loop ends normally. -/
theorem forLoop_invariant {σ : Type} (body : Int → σ → Outcome σ) (P : Int → σ → Prop) :
    ∀ (k : Nat) (lo : Int) (s : σ), P lo s →
      (∀ i s, lo ≤ i → i < lo + (k : Int) → P i s →
        ∃ s1, body i s = Outcome.ok s1 ∧ P (i + 1) s1) →
      ∃ s1, forLoop body k lo s = Outcome.ok s1 ∧ P (lo + (k : Int)) s1 := by
  intro k
  induction k with
  | zero =>
    intro lo s hs _
    exact ⟨s, rfl, by simpa using hs⟩
  | succ k ih =>
    intro lo s hs hstep
    obtain ⟨s1, hb, hP⟩ := hstep lo s (le_refl _) (by push_cast; omega) hs
    obtain ⟨s2, hl, hP2⟩ := ih (lo + 1) s1 hP (fun i t h1 h2 hp =>
      hstep i t (by omega) (by push_cast; omega) hp)
    refine ⟨s2, ?_, ?_⟩
    · rw [forLoop, hb, Outcome.bind_ok, hl]
    · have : lo + ((k + 1 : Nat) : Int) = lo + 1 + (k : Int) := by push_cast; ring
      rw [this]; exact hP2

/-- Loop rule for `forRange lo hi` with `lo ≤ hi`. -/
theorem forRange_invariant {σ : Type} (body : Int → σ → Outcome σ) (P : Int → σ → Prop)
    (lo hi : Int) (s : σ) (hle : lo ≤ hi) (hs : P lo s)
    (hstep : ∀ i s, lo ≤ i → i < hi → P i s → ∃ s1, body i s = Outcome.ok s1 ∧ P (i + 1) s1) :
    ∃ s1, forRange lo hi body s = Outcome.ok s1 ∧ P hi s1 := by
  have hk : lo + (((hi - lo).toNat : Nat) : Int) = hi := by
    rw [Int.toNat_of_nonneg (by omega)]; ring
  obtain ⟨s1, h1, h2⟩ := forLoop_invariant body P (hi - lo).toNat lo s hs
    (fun i t h1 h2 hp => hstep i t h1 (by omega) hp)
  exact ⟨s1, h1, by rw [hk] at h2; exact h2⟩


/-! ## C1, C2: `dot` -/

/-- The loop of `dot` on two owning vectors of equal length `≥ 1`, started on
`v1[0]*v2[0]`, ends on the sum of the products. -/
theorem dot_loop_ok {T : Type} [Semiring T] (cfg : Config) (v1 v2 : Vec T)
    (h1 : v1.Owns) (h2 : v2.Owns) (hlen : v1.length = v2.length) (hpos : 1 ≤ v1.length) :
    forRange 1 v1.length
      (fun i result =>
        (Vec.at cfg v1 i).bind fun a =>
        (Vec.at cfg v2 i).bind fun b =>
        Outcome.ok (result + a * b))
      (v1._mat.getD 0 0 * v2._mat.getD 0 0)
    = Outcome.ok (∑ i in Finset.range v1.length.toNat, v1._mat.getD i 0 * v2._mat.getD i 0) := by
  obtain ⟨r, hr, hP⟩ := forRange_invariant
    (fun i result =>
        (Vec.at cfg v1 i).bind fun a =>
        (Vec.at cfg v2 i).bind fun b =>
        Outcome.ok (result + a * b))
    (fun i r => r = ∑ j in Finset.range i.toNat, v1._mat.getD j 0 * v2._mat.getD j 0)
    1 v1.length (v1._mat.getD 0 0 * v2._mat.getD 0 0) hpos (by simp)
    (by
      intro i r hi1 hi2 hr
      refine ⟨r + v1._mat.getD i.toNat 0 * v2._mat.getD i.toNat 0, ?_, ?_⟩
      · simp only []
        rw [Vec.at_ok cfg v1 0 h1 i (by omega) hi2,
          Vec.at_ok cfg v2 0 h2 i (by omega) (by omega)]
        rfl
      · have : (i + 1).toNat = i.toNat + 1 := by omega
        show _ = ∑ j in Finset.range (i + 1).toNat, v1._mat.getD j 0 * v2._mat.getD j 0
        rw [this, Finset.sum_range_succ, hr])
  rw [hr, hP]

/-- C1: for two owning vectors of the same length `n ≥ 1` over a semiring, in
any build (in particular with all checks enabled), every `at(i)` with `i < n`
returns the `i`-th cell and `dot(v1, v2)` returns the sum over `i < n` of
`v1.at(i) * v2.at(i)`; and `dot([1,2,3], [4,5,6]) = 32`. -/
theorem dot_eq_sum_of_products {T : Type} [Semiring T] (cfg : Config) (v1 v2 : Vec T)
    (h1 : v1.Owns) (h2 : v2.Owns) (hlen : v1.length = v2.length) (hpos : 1 ≤ v1.length) :
    (∀ i : Nat, (i : Int) < v1.length →
        Vec.at cfg v1 i = Outcome.ok (v1._mat.getD i 0) ∧
        Vec.at cfg v2 i = Outcome.ok (v2._mat.getD i 0)) ∧
    dot cfg v1 v2
      = Outcome.ok (∑ i in Finset.range v1.length.toNat, v1._mat.getD i 0 * v2._mat.getD i 0) ∧
    dot allChecks (Vec.ofCells [1, 2, 3] : Vec Int) (Vec.ofCells [4, 5, 6] : Vec Int)
      = Outcome.ok (32 : Int) := by
  refine ⟨?_, ?_, by decide⟩
  · intro i hi
    have e1 := Vec.at_ok cfg v1 0 h1 i (by omega) hi
    have e2 := Vec.at_ok cfg v2 0 h2 i (by omega) (by omega)
    simpa using And.intro e1 e2
  · unfold dot
    rw [if_neg (by rintro ⟨_, h | h⟩ <;> omega), if_neg (by rintro ⟨_, h⟩; exact h hlen)]
    have e1 := Vec.at_ok cfg v1 0 h1 0 (le_refl _) (by omega)
    have e2 := Vec.at_ok cfg v2 0 h2 0 (le_refl _) (by omega)
    simp only [Int.toNat_zero] at e1 e2
    rw [e1, Outcome.bind_ok, e2, Outcome.bind_ok]
    exact dot_loop_ok cfg v1 v2 h1 h2 hlen hpos

/-- Witness for C1 on the vectors `[1,2,3]` and `[4,5,6]`. -/
theorem dot_eq_sum_of_products_witness :
    (Vec.ofCells [1, 2, 3] : Vec Int).Owns ∧ (Vec.ofCells [4, 5, 6] : Vec Int).Owns ∧
    (Vec.ofCells [1, 2, 3] : Vec Int).length = (Vec.ofCells [4, 5, 6] : Vec Int).length ∧
    1 ≤ (Vec.ofCells [1, 2, 3] : Vec Int).length ∧
    dot allChecks (Vec.ofCells [1, 2, 3] : Vec Int) (Vec.ofCells [4, 5, 6] : Vec Int)
      = Outcome.ok (∑ i in Finset.range 3, [1, 2, 3].getD i (0 : Int) * [4, 5, 6].getD i 0) :=
  ⟨by decide, by decide, by decide, by decide,
    (dot_eq_sum_of_products allChecks (Vec.ofCells [1, 2, 3] : Vec Int) (Vec.ofCells [4, 5, 6])
      (by decide) (by decide) (by decide) (by decide)).2.1⟩

theorem Vec.at_ok_exists (cfg : Config) (v : Vec T) (hv : v.Owns) (i : Int) (h0 : 0 ≤ i)
    (h1 : i < v.length) : ∃ x, Vec.at cfg v i = Outcome.ok x := by
  have hlt : i.toNat < v._mat.length := by
    unfold Vec.Owns at hv; unfold Vec.length at h1; omega
  exact ⟨_, Vec.at_ok cfg v (v._mat.get ⟨i.toNat, hlt⟩) hv i h0 h1⟩

/-- The only exception `at(index)` can throw is `OutOfBoundsError`. -/
theorem Vec.at_raise (cfg : Config) (v : Vec T) (i : Int) (e : ORCAExcept)
    (h : Vec.at cfg v i = Outcome.raise e) : e = ORCAExcept.OutOfBoundsError := by
  unfold Vec.at Vec._address at h
  split at h
  · simp only [Outcome.bind_raise, Outcome.raise.injEq] at h
    exact h.symm
  · simp only [Outcome.bind_ok] at h
    unfold load at h
    split at h
    · split at h <;> cases h
    · cases h

/-- A loop whose body throws nothing but `OutOfBoundsError` throws nothing but
`OutOfBoundsError`. -/
theorem forLoop_raise {σ : Type} (body : Int → σ → Outcome σ)
    (hb : ∀ i s e, body i s = Outcome.raise e → e = ORCAExcept.OutOfBoundsError) :
    ∀ (k : Nat) (lo : Int) (s : σ) (e : ORCAExcept),
      forLoop body k lo s = Outcome.raise e → e = ORCAExcept.OutOfBoundsError := by
  intro k
  induction k with
  | zero => intro lo s e h; cases h
  | succ k ih =>
    intro lo s e h
    rw [forLoop] at h
    cases hbody : body lo s with
    | ok s1 => rw [hbody, Outcome.bind_ok] at h; exact ih _ _ _ h
    | raise e1 =>
      rw [hbody, Outcome.bind_raise] at h
      cases h
      exact hb _ _ _ hbody
    | undefined => rw [hbody] at h; cases h

/-- The element reads and the accumulation of `dot` throw nothing but
`OutOfBoundsError`. -/
theorem dot_body_raise {T : Type} [Mul T] [Add T] (cfg : Config) (v1 v2 : Vec T)
    (e : ORCAExcept)
    (h : ((Vec.at cfg v1 0).bind fun a0 =>
          (Vec.at cfg v2 0).bind fun b0 =>
          forRange 1 v1.length
            (fun i result =>
              (Vec.at cfg v1 i).bind fun a =>
              (Vec.at cfg v2 i).bind fun b =>
              Outcome.ok (result + a * b))
            (a0 * b0)) = Outcome.raise e) : e = ORCAExcept.OutOfBoundsError := by
  cases h1 : Vec.at cfg v1 0 with
  | raise e1 => rw [h1] at h; cases h; exact Vec.at_raise _ _ _ _ h1
  | undefined => rw [h1] at h; cases h
  | ok a0 =>
    rw [h1, Outcome.bind_ok] at h
    cases h2 : Vec.at cfg v2 0 with
    | raise e1 => rw [h2] at h; cases h; exact Vec.at_raise _ _ _ _ h2
    | undefined => rw [h2] at h; cases h
    | ok b0 =>
      rw [h2, Outcome.bind_ok] at h
      refine forLoop_raise _ ?_ _ _ _ _ h
      intro i s e1 hb
      cases h3 : Vec.at cfg v1 i with
      | raise e2 => simp only [h3, Outcome.bind_raise] at hb; cases hb; exact Vec.at_raise _ _ _ _ h3
      | undefined => simp only [h3, Outcome.bind_undefined] at hb; cases hb
      | ok a =>
        cases h4 : Vec.at cfg v2 i with
        | raise e2 =>
          simp only [h3, h4, Outcome.bind_ok, Outcome.bind_raise] at hb
          cases hb; exact Vec.at_raise _ _ _ _ h4
        | undefined => simp only [h3, h4, Outcome.bind_ok, Outcome.bind_undefined] at hb; cases hb
        | ok b => simp only [h3, h4, Outcome.bind_ok] at hb; cases hb

/-- C2: in a build with the emptiness and bounds checks compiled in (so with
all checks enabled), `dot(v1, v2)` throws `EmptyElementError` exactly when one
of the lengths is `0` (whether or not the lengths differ), throws
`BadDimensionsError` exactly when both lengths are non-zero and differ, and on
owning vectors of equal non-zero length returns a value. -/
theorem dot_error_cases {T : Type} [Mul T] [Add T] (cfg : Config)
    (hE : cfg.ORCA_DISABLE_EMPTY_CHECKS = false) (hB : cfg.ORCA_DISABLE_BOUNDS_CHECKS = false)
    (v1 v2 : Vec T) :
    ((dot cfg v1 v2 : Outcome T) = Outcome.raise ORCAExcept.EmptyElementError
        ↔ (v1.length = 0 ∨ v2.length = 0)) ∧
    ((dot cfg v1 v2 : Outcome T) = Outcome.raise ORCAExcept.BadDimensionsError
        ↔ (v1.length ≠ 0 ∧ v2.length ≠ 0 ∧ v1.length ≠ v2.length)) ∧
    (v1.Owns → v2.Owns → v1.length ≠ 0 → v2.length ≠ 0 → v1.length = v2.length →
        ∃ x : T, dot cfg v1 v2 = Outcome.ok x) := by
  refine ⟨?_, ?_, ?_⟩
  · constructor
    · intro h
      by_contra hne
      unfold dot at h
      rw [if_neg (fun hc => hne hc.2)] at h
      split at h
      · cases h
      · cases dot_body_raise cfg v1 v2 _ h
    · intro h
      unfold dot
      rw [if_pos ⟨hE, h⟩]
  · constructor
    · intro h
      unfold dot at h
      split at h
      · cases h
      · rename_i hne
        have hne1 : ¬(v1.length = 0 ∨ v2.length = 0) := fun hc => hne ⟨hE, hc⟩
        split at h
        · rename_i hd
          exact ⟨fun h0 => hne1 (Or.inl h0), fun h0 => hne1 (Or.inr h0), hd.2⟩
        · cases dot_body_raise cfg v1 v2 _ h
    · rintro ⟨ha, hb, hc⟩
      unfold dot
      rw [if_neg (by rintro ⟨_, h | h⟩ <;> contradiction), if_pos ⟨hB, hc⟩]
  · intro h1 h2 ha hb hlen
    have hnn : 0 ≤ v1.length := by
      unfold Vec.Owns at h1; unfold Vec.length; omega
    have hpos : 1 ≤ v1.length := by omega
    unfold dot
    rw [if_neg (by rintro ⟨_, h | h⟩ <;> contradiction), if_neg (by rintro ⟨_, h⟩; exact h hlen)]
    obtain ⟨a0, e1⟩ := Vec.at_ok_exists cfg v1 h1 0 (le_refl _) (by omega)
    obtain ⟨b0, e2⟩ := Vec.at_ok_exists cfg v2 h2 0 (le_refl _) (by omega)
    rw [e1, Outcome.bind_ok, e2, Outcome.bind_ok]
    obtain ⟨r, hr, _⟩ := forRange_invariant
      (fun i result =>
        (Vec.at cfg v1 i).bind fun a =>
        (Vec.at cfg v2 i).bind fun b =>
        Outcome.ok (result + a * b))
      (fun _ _ => True) 1 v1.length (a0 * b0) hpos trivial
      (by
        intro i r hi1 hi2 _
        obtain ⟨a, ea⟩ := Vec.at_ok_exists cfg v1 h1 i (by omega) hi2
        obtain ⟨b, eb⟩ := Vec.at_ok_exists cfg v2 h2 i (by omega) (by omega)
        exact ⟨r + a * b, by simp only [ea, eb, Outcome.bind_ok], trivial⟩)
    exact ⟨r, hr⟩

/-- Witness for C2: the three cases on concrete integer vectors. -/
theorem dot_error_cases_witness :
    allChecks.ORCA_DISABLE_EMPTY_CHECKS = false ∧ allChecks.ORCA_DISABLE_BOUNDS_CHECKS = false ∧
    ((dot allChecks (Vec.ofCells ([] : List Int)) (Vec.ofCells [1, 2]) : Outcome Int)
        = Outcome.raise ORCAExcept.EmptyElementError) ∧
    ((dot allChecks (Vec.ofCells [1, 2]) (Vec.ofCells [1, 2, 3]) : Outcome Int)
        = Outcome.raise ORCAExcept.BadDimensionsError) ∧
    (∃ x : Int, dot allChecks (Vec.ofCells [1, 2, 3]) (Vec.ofCells [4, 5, 6]) = Outcome.ok x) :=
  ⟨by decide, by decide,
    (dot_error_cases allChecks (by decide) (by decide)
      (Vec.ofCells ([] : List Int)) (Vec.ofCells [1, 2])).1.2 (by decide),
    (dot_error_cases allChecks (by decide) (by decide)
      (Vec.ofCells [1, 2]) (Vec.ofCells ([1, 2, 3] : List Int))).2.1.2 (by decide),
    (dot_error_cases allChecks (by decide) (by decide)
      (Vec.ofCells [1, 2, 3]) (Vec.ofCells ([4, 5, 6] : List Int))).2.2
      (by decide) (by decide) (by decide) (by decide) (by decide)⟩

/-! ## C3, C4: the 1-D accessors of owning vectors -/

/-- With bounds checks compiled in, `_address(elem)` throws exactly when
`elem < 0` or `elem > length()`. -/
theorem Vec._address_raise_iff (cfg : Config) (hB : cfg.ORCA_DISABLE_BOUNDS_CHECKS = false)
    (v : Vec T) (i : Int) :
    Vec._address cfg v i = Outcome.raise ORCAExcept.OutOfBoundsError ↔ (i < 0 ∨ i > v.length) := by
  unfold Vec._address
  constructor
  · intro h
    split at h
    · rename_i hc; exact hc.2
    · cases h
  · intro h
    rw [if_pos ⟨hB, h⟩]

/-- With bounds checks compiled in, `at(index)` throws `OutOfBoundsError`
exactly when `index < 0` or `index > length()`. -/
theorem Vec.at_raise_iff (cfg : Config) (hB : cfg.ORCA_DISABLE_BOUNDS_CHECKS = false)
    (v : Vec T) (i : Int) :
    Vec.at cfg v i = Outcome.raise ORCAExcept.OutOfBoundsError ↔ (i < 0 ∨ i > v.length) := by
  constructor
  · intro h
    by_contra hn
    have ha : Vec._address cfg v i = Outcome.ok i := by
      unfold Vec._address; rw [if_neg (fun hc => hn hc.2)]
    rw [Vec.at, ha, Outcome.bind_ok] at h
    unfold load at h
    split at h
    · split at h <;> cases h
    · cases h
  · intro h
    rw [Vec.at, (Vec._address_raise_iff cfg hB v i).2 h, Outcome.bind_raise]

/-- With bounds checks compiled in, `set(index, elem)` throws
`OutOfBoundsError` exactly when `index < 0` or `index > length()`. -/
theorem Vec.set_raise_iff (cfg : Config) (hB : cfg.ORCA_DISABLE_BOUNDS_CHECKS = false)
    (v : Vec T) (i : Int) (x : T) :
    Vec.set cfg v i x = Outcome.raise ORCAExcept.OutOfBoundsError ↔ (i < 0 ∨ i > v.length) := by
  constructor
  · intro h
    by_contra hn
    have ha : Vec._address cfg v i = Outcome.ok i := by
      unfold Vec._address; rw [if_neg (fun hc => hn hc.2)]
    rw [Vec.set, ha, Outcome.bind_ok] at h
    unfold store at h
    split at h
    · simp only [Outcome.bind_ok] at h; cases h
    · cases h
  · intro h
    rw [Vec.set, (Vec._address_raise_iff cfg hB v i).2 h, Outcome.bind_raise]

/-- C3 (the code at the failing input): with all checks enabled, on the
owning vector `[1,2,3]` of length 3, in row and in column shape, `at(3)` and
`set(3, 7)` do not throw `OutOfBoundsError`: the test `elem > length()` lets
the index 3 through and the cell one past the buffer is accessed. -/
theorem at_set_index_eq_length_not_rejected :
    Vec.at allChecks (⟨⟨[1, 2, 3], 1, 3⟩, 3⟩ : Vec Int) 3 = Outcome.undefined ∧
    Vec.set allChecks (⟨⟨[1, 2, 3], 1, 3⟩, 3⟩ : Vec Int) 3 7 = Outcome.undefined ∧
    ColVec.at allChecks (⟨⟨[1, 2, 3], 3, 1⟩, 3⟩ : Vec Int) 3 = Outcome.undefined ∧
    ColVec.set allChecks (⟨⟨[1, 2, 3], 3, 1⟩, 3⟩ : Vec Int) 3 7 = Outcome.undefined ∧
    Vec.at allChecks (⟨⟨[1, 2, 3], 1, 3⟩, 3⟩ : Vec Int) 4
      = Outcome.raise ORCAExcept.OutOfBoundsError := by
  decide

/-- C4: on an owning vector of length `n`, in any build, for in-range `i` and
`j`: `set(i, x)` succeeds, afterwards `at(i)` returns `x`, `at(j)` is what it
was for `j ≠ i`, and `length()`, the row count and the column count are
unchanged; this holds for the `Vec`/`RowVec` accessors and for the `ColVec`
overrides. -/
theorem set_at_roundtrip (cfg : Config) (v : Vec T) (hv : v.Owns) (i j : Int) (x : T)
    (hi0 : 0 ≤ i) (hi : i < v.length) (hj0 : 0 ≤ j) (hj : j < v.length) :
    (∃ w, Vec.set cfg v i x = Outcome.ok w ∧ Vec.at cfg w i = Outcome.ok x ∧
        (j ≠ i → Vec.at cfg w j = Vec.at cfg v j) ∧
        w.length = v.length ∧ w._n_rows = v._n_rows ∧ w._n_cols = v._n_cols) ∧
    (∃ w, ColVec.set cfg v i x = Outcome.ok w ∧ ColVec.at cfg w i = Outcome.ok x ∧
        (j ≠ i → ColVec.at cfg w j = ColVec.at cfg v j) ∧
        w.length = v.length ∧ w._n_rows = v._n_rows ∧ w._n_cols = v._n_cols) := by
  have key : ∃ w, Vec.set cfg v i x = Outcome.ok w ∧ Vec.at cfg w i = Outcome.ok x ∧
        (j ≠ i → Vec.at cfg w j = Vec.at cfg v j) ∧
        w.length = v.length ∧ w._n_rows = v._n_rows ∧ w._n_cols = v._n_cols := by
    have hlen : (v._mat.length : Int) = v._n_elems := hv
    have hi' : i < v._n_elems := hi
    have hj' : j < v._n_elems := hj
    have hw : ({ v with _mat := v._mat.set i.toNat x } : Vec T).Owns := by
      unfold Vec.Owns; simpa using hlen
    refine ⟨{ v with _mat := v._mat.set i.toNat x }, Vec.set_ok cfg v x hv i hi0 hi, ?_, ?_,
      rfl, rfl, rfl⟩
    · rw [Vec.at_ok cfg _ x hw i hi0 hi]
      have hlt : i.toNat < v._mat.length := by omega
      simp [List.getD, hlt]
    · intro hne
      rw [Vec.at_ok cfg _ x hw j hj0 hj, Vec.at_ok cfg v x hv j hj0 hj]
      have hne' : i.toNat ≠ j.toNat := by omega
      simp [List.getD, List.getElem?_set_ne hne']
  exact ⟨key, key⟩

/-- Witness for C4 on the vector `[1,2,3]`, writing index 1 and reading
index 2. -/
theorem set_at_roundtrip_witness :
    (Vec.ofCells [1, 2, 3] : Vec Int).Owns ∧
    (∃ w, Vec.set allChecks (Vec.ofCells [1, 2, 3] : Vec Int) 1 9 = Outcome.ok w ∧
        Vec.at allChecks w 1 = Outcome.ok 9 ∧
        ((2 : Int) ≠ 1 → Vec.at allChecks w 2 = Vec.at allChecks (Vec.ofCells [1, 2, 3]) 2) ∧
        w.length = (Vec.ofCells [1, 2, 3] : Vec Int).length ∧
        w._n_rows = (Vec.ofCells [1, 2, 3] : Vec Int)._n_rows ∧
        w._n_cols = (Vec.ofCells [1, 2, 3] : Vec Int)._n_cols) :=
  ⟨by decide,
    (set_at_roundtrip allChecks (Vec.ofCells [1, 2, 3] : Vec Int) (by decide) 1 2 9
      (by decide) (by decide) (by decide) (by decide)).1⟩

/-! ## C5, C6: row and column views -/

/-- On a matrix that owns its storage, an in-range `at(row, col)` returns a
cell. -/
theorem Mat.at_in_range_ok (cfg : Config) (m : Mat T) (hm : m.Owns) (row col : Int)
    (hr0 : 0 ≤ row) (hr : row < m._n_rows) (hc0 : 0 ≤ col) (hc : col < m._n_cols) :
    ∃ x, Mat.at cfg m row col = Outcome.ok x := by
  obtain ⟨_, _, hlen⟩ := hm
  have h0 : 0 ≤ row * m._n_cols + col := by positivity
  have h1 : row * m._n_cols + col < m._n_rows * m._n_cols := by nlinarith
  have hlt : (row * m._n_cols + col).toNat < m._mat.length := by omega
  refine ⟨m._mat.get ⟨_, hlt⟩, ?_⟩
  unfold Mat.at
  rw [if_neg (by rintro ⟨_, h | h⟩ <;> omega)]
  rw [load_ok _ (m._mat.get ⟨_, hlt⟩) _ h0 (by omega)]
  simp [List.getD, hlt]

/-- A successful `set(row, col, value)` keeps the shape of a matrix and the
size of its buffer. -/
theorem Mat.set_shape (cfg : Config) (m m1 : Mat T) (row col : Int) (x : T)
    (h : Mat.set cfg m row col x = Outcome.ok m1) :
    m1._n_rows = m._n_rows ∧ m1._n_cols = m._n_cols ∧ m1._mat.length = m._mat.length := by
  unfold Mat.set at h
  split at h
  · cases h
  · unfold store at h
    split at h
    · simp only [Outcome.bind_ok, Outcome.ok.injEq] at h
      subst h
      simp
    · cases h

/-- A successful sequence of `set` calls keeps the shape of a matrix and the
size of its buffer. -/
theorem Mat.setAll_shape (cfg : Config) (ops : List (Int × Int × T)) :
    ∀ (m m1 : Mat T), Mat.setAll cfg m ops = Outcome.ok m1 →
      m1._n_rows = m._n_rows ∧ m1._n_cols = m._n_cols ∧ m1._mat.length = m._mat.length := by
  induction ops with
  | nil =>
    intro m m1 h
    simp only [Mat.setAll, Outcome.ok.injEq] at h
    subst h
    exact ⟨rfl, rfl, rfl⟩
  | cons op rest ih =>
    intro m m1 h
    obtain ⟨r, c, x⟩ := op
    rw [Mat.setAll] at h
    cases hs : Mat.set cfg m r c x with
    | raise e => rw [hs] at h; cases h
    | undefined => rw [hs] at h; cases h
    | ok m2 =>
      rw [hs, Outcome.bind_ok] at h
      obtain ⟨a1, a2, a3⟩ := Mat.set_shape cfg m m2 r c x hs
      obtain ⟨b1, b2, b3⟩ := ih m2 m1 h
      exact ⟨b1.trans a1, b2.trans a2, b3.trans a3⟩

theorem Mat.setAll_Owns (cfg : Config) (ops : List (Int × Int × T)) (m m1 : Mat T)
    (hm : m.Owns) (h : Mat.setAll cfg m ops = Outcome.ok m1) : m1.Owns := by
  obtain ⟨a1, a2, a3⟩ := Mat.setAll_shape cfg ops m m1 h
  obtain ⟨h1, h2, h3⟩ := hm
  refine ⟨by omega, by omega, ?_⟩
  rw [a1, a2, a3]; exact h3

/-- C5: for a matrix `m0`, the row view of row `r` and the column view of
column `c` built with the pointer constructors, and the state `m` of the
matrix after any successful sequence `ops` of `m.set(row, col, value)` calls
(none included): `rowView.at(i) = m.at(r, i)` and `colView.at(i) = m.at(i, c)`
for every `i`; and when the matrix owns its storage and the coordinates are
in range, both sides are a cell value (no error). -/
theorem view_at_eq_parent_at (cfg : Config) (this1 this2 : Vec T) (m0 m : Mat T) (r c : Int)
    (ops : List (Int × Int × T)) (hops : Mat.setAll cfg m0 ops = Outcome.ok m) (i : Int) :
    MatRow.at cfg (MatRow.MatRow_ptr this1 m0 r) m i = Mat.at cfg m r i ∧
    MatCol.at cfg (MatCol.MatCol_ptr this2 m0 c) m i = Mat.at cfg m i c ∧
    (m0.Owns → 0 ≤ r → r < m0.rows → 0 ≤ i →
      i < (MatRow.MatRow_ptr this1 m0 r).toVec.length →
      ∃ x, MatRow.at cfg (MatRow.MatRow_ptr this1 m0 r) m i = Outcome.ok x ∧
        Mat.at cfg m r i = Outcome.ok x) ∧
    (m0.Owns → 0 ≤ c → c < m0.cols → 0 ≤ i →
      i < (MatCol.MatCol_ptr this2 m0 c).toVec.length →
      ∃ x, MatCol.at cfg (MatCol.MatCol_ptr this2 m0 c) m i = Outcome.ok x ∧
        Mat.at cfg m i c = Outcome.ok x) := by
  obtain ⟨a1, a2, _⟩ := Mat.setAll_shape cfg ops m0 m hops
  refine ⟨rfl, rfl, ?_, ?_⟩
  · intro hm hr0 hr hi0 hi
    have hO := Mat.setAll_Owns cfg ops m0 m hm hops
    obtain ⟨x, hx⟩ := Mat.at_in_range_ok cfg m hO r i hr0 (by rw [a1]; exact hr) hi0
      (by rw [a2]; exact hi)
    exact ⟨x, hx, hx⟩
  · intro hm hc0 hc hi0 hi
    have hO := Mat.setAll_Owns cfg ops m0 m hm hops
    obtain ⟨x, hx⟩ := Mat.at_in_range_ok cfg m hO i c hi0 (by rw [a1]; exact hi) hc0
      (by rw [a2]; exact hc)
    exact ⟨x, hx, hx⟩

/-- Witness for C5: the 2x2 matrix `[[1,2],[3,4]]`, views of row 1 and of
column 0, after `m.set(1, 0, 7)` and `m.set(0, 1, 8)`. -/
theorem view_at_eq_parent_at_witness :
    Mat.setAll allChecks (⟨[1, 2, 3, 4], 2, 2⟩ : Mat Int) [(1, 0, 7), (0, 1, 8)]
      = Outcome.ok ⟨[1, 8, 7, 4], 2, 2⟩ ∧
    MatRow.at allChecks (MatRow.MatRow_ptr ⟨⟨[], 0, 0⟩, 0⟩ (⟨[1, 2, 3, 4], 2, 2⟩ : Mat Int) 1)
        ⟨[1, 8, 7, 4], 2, 2⟩ 0
      = Mat.at allChecks ⟨[1, 8, 7, 4], 2, 2⟩ 1 0 ∧
    MatCol.at allChecks (MatCol.MatCol_ptr ⟨⟨[], 0, 0⟩, 0⟩ (⟨[1, 2, 3, 4], 2, 2⟩ : Mat Int) 0)
        ⟨[1, 8, 7, 4], 2, 2⟩ 0
      = Mat.at allChecks ⟨[1, 8, 7, 4], 2, 2⟩ 0 0 ∧
    (∃ x, MatRow.at allChecks
          (MatRow.MatRow_ptr ⟨⟨[], 0, 0⟩, 0⟩ (⟨[1, 2, 3, 4], 2, 2⟩ : Mat Int) 1)
          ⟨[1, 8, 7, 4], 2, 2⟩ 0 = Outcome.ok x ∧
        Mat.at allChecks (⟨[1, 8, 7, 4], 2, 2⟩ : Mat Int) 1 0 = Outcome.ok x) ∧
    (∃ x, MatCol.at allChecks
          (MatCol.MatCol_ptr ⟨⟨[], 0, 0⟩, 0⟩ (⟨[1, 2, 3, 4], 2, 2⟩ : Mat Int) 0)
          ⟨[1, 8, 7, 4], 2, 2⟩ 0 = Outcome.ok x ∧
        Mat.at allChecks (⟨[1, 8, 7, 4], 2, 2⟩ : Mat Int) 0 0 = Outcome.ok x) ∧
    Mat.at allChecks (⟨[1, 8, 7, 4], 2, 2⟩ : Mat Int) 1 0 = Outcome.ok 7 :=
  ⟨by decide,
    (view_at_eq_parent_at allChecks ⟨⟨[], 0, 0⟩, 0⟩ ⟨⟨[], 0, 0⟩, 0⟩ (⟨[1, 2, 3, 4], 2, 2⟩ : Mat Int)
      ⟨[1, 8, 7, 4], 2, 2⟩ 1 0 [(1, 0, 7), (0, 1, 8)] (by decide) 0).1,
    (view_at_eq_parent_at allChecks ⟨⟨[], 0, 0⟩, 0⟩ ⟨⟨[], 0, 0⟩, 0⟩ (⟨[1, 2, 3, 4], 2, 2⟩ : Mat Int)
      ⟨[1, 8, 7, 4], 2, 2⟩ 1 0 [(1, 0, 7), (0, 1, 8)] (by decide) 0).2.1,
    (view_at_eq_parent_at allChecks ⟨⟨[], 0, 0⟩, 0⟩ ⟨⟨[], 0, 0⟩, 0⟩ (⟨[1, 2, 3, 4], 2, 2⟩ : Mat Int)
      ⟨[1, 8, 7, 4], 2, 2⟩ 1 0 [(1, 0, 7), (0, 1, 8)] (by decide) 0).2.2.1
      ⟨by decide, by decide, by decide⟩ (by decide) (by decide) (by decide) (by decide),
    (view_at_eq_parent_at allChecks ⟨⟨[], 0, 0⟩, 0⟩ ⟨⟨[], 0, 0⟩, 0⟩ (⟨[1, 2, 3, 4], 2, 2⟩ : Mat Int)
      ⟨[1, 8, 7, 4], 2, 2⟩ 1 0 [(1, 0, 7), (0, 1, 8)] (by decide) 0).2.2.2
      ⟨by decide, by decide, by decide⟩ (by decide) (by decide) (by decide) (by decide),
    by decide⟩

/-- The inherited `set` of a row view never changes the parent matrix. -/
theorem MatRow.set_parent_unchanged (cfg : Config) (view view1 : MatRow T) (m m1 : Mat T)
    (i : Int) (x : T) (h : MatRow.set cfg view m i x = Outcome.ok (view1, m1)) : m1 = m := by
  unfold MatRow.set at h
  cases hs : Vec.set cfg view.toVec i x with
  | raise e => rw [hs] at h; cases h
  | undefined => rw [hs] at h; cases h
  | ok v =>
    rw [hs, Outcome.bind_ok] at h
    simp only [Outcome.ok.injEq, Prod.mk.injEq] at h
    exact h.2.symm

/-- The inherited `set` of a column view never changes the parent matrix. -/
theorem MatCol.set_leaves_parent (cfg : Config) (view view1 : MatCol T) (m m1 : Mat T)
    (i : Int) (x : T) (h : MatCol.set cfg view m i x = Outcome.ok (view1, m1)) : m1 = m := by
  unfold MatCol.set at h
  cases hs : ColVec.set cfg view.toVec i x with
  | raise e => rw [hs] at h; cases h
  | undefined => rw [hs] at h; cases h
  | ok v =>
    rw [hs, Outcome.bind_ok] at h
    simp only [Outcome.ok.injEq, Prod.mk.injEq] at h
    exact h.2.symm

/-- A write through the parent is seen by the views: after a successful
`m.set(r, i, x)` the row view of row `r` reads `x` at `i`, and after a
successful `m.set(i, c, x)` the column view of column `c` reads `x` at `i`,
on a matrix that owns its storage. -/
theorem Mat.set_then_view_at (cfg : Config) (this1 : Vec T) (m0 m m1 : Mat T) (hm : m.Owns)
    (row col : Int) (x : T) (h : Mat.set cfg m row col x = Outcome.ok m1)
    (h0 : 0 ≤ row * m._n_cols + col) (h1 : row * m._n_cols + col < m._n_rows * m._n_cols) :
    MatRow.at cfg (MatRow.MatRow_ptr this1 m0 row) m1 col = Outcome.ok x ∧
    MatCol.at cfg (MatCol.MatCol_ptr this1 m0 col) m1 row = Outcome.ok x := by
  have key : Mat.at cfg m1 row col = Outcome.ok x := by
    obtain ⟨_, _, hlen⟩ := hm
    unfold Mat.set at h
    rw [if_neg (by rintro ⟨_, h | h⟩ <;> omega), store_ok _ _ x h0 (by omega),
      Outcome.bind_ok] at h
    simp only [Outcome.ok.injEq] at h
    subst h
    unfold Mat.at
    simp only []
    rw [if_neg (by rintro ⟨_, h | h⟩ <;> omega), load_ok _ x _ h0 (by simp; omega)]
    have hlt : (row * m._n_cols + col).toNat < m._mat.length := by omega
    simp [List.getD, hlt]
  exact ⟨key, key⟩

/-- C6 (the code at the failing input): on the 2x2 matrix `m = [[1,2],[3,4]]`
with all checks enabled, `view.set(0, 9)` through the row view of row 0 or
the column view of column 0 is the inherited `Vec::set`/`ColVec::set`, which
writes through the `_mat` member of the view itself.  When that member refers
to two cells of its own the call succeeds and the parent still reads
`m.at(0, 0) = 1`; when it refers to no storage the write is undefined
behaviour.  In neither case does the parent read 9. -/
theorem view_set_not_forwarded :
    (MatRow.set allChecks
        (MatRow.MatRow_ptr ⟨⟨[0, 0], 0, 0⟩, 0⟩ (⟨[1, 2, 3, 4], 2, 2⟩ : Mat Int) 0)
        ⟨[1, 2, 3, 4], 2, 2⟩ 0 9).bind (fun r => Mat.at allChecks r.2 0 0) = Outcome.ok 1 ∧
    (MatCol.set allChecks
        (MatCol.MatCol_ptr ⟨⟨[0, 0], 0, 0⟩, 0⟩ (⟨[1, 2, 3, 4], 2, 2⟩ : Mat Int) 0)
        ⟨[1, 2, 3, 4], 2, 2⟩ 0 9).bind (fun r => Mat.at allChecks r.2 0 0) = Outcome.ok 1 ∧
    MatRow.set allChecks
        (MatRow.MatRow_ptr ⟨⟨[], 0, 0⟩, 0⟩ (⟨[1, 2, 3, 4], 2, 2⟩ : Mat Int) 0)
        ⟨[1, 2, 3, 4], 2, 2⟩ 0 9 = Outcome.undefined ∧
    MatCol.set allChecks
        (MatCol.MatCol_ptr ⟨⟨[], 0, 0⟩, 0⟩ (⟨[1, 2, 3, 4], 2, 2⟩ : Mat Int) 0)
        ⟨[1, 2, 3, 4], 2, 2⟩ 0 9 = Outcome.undefined := by
  decide

/-! ## C7, C8: the reductions -/

/-- One more cell in a prefix of a buffer. -/
theorem take_succ_getD (l : List T) (d : T) (n : Nat) (h : n < l.length) :
    l.take (n + 1) = l.take n ++ [l.getD n d] := by
  rw [List.take_succ]
  simp [List.getD, List.getElem?_eq_getElem h]

/-- The accumulation loop shared by `sum` and `prod`: on an owning vector it
ends normally on the left fold of the cells. -/
theorem reduce_loop_ok (cfg : Config) (op : T → T → T) (init d : T) (v : Vec T) (hv : v.Owns) :
    forRange 0 v.length
      (fun i result => (Vec.at cfg v i).bind fun x => Outcome.ok (op result x)) init
    = Outcome.ok (v._mat.foldl op init) := by
  have hlen : (v._mat.length : Int) = v._n_elems := hv
  have hnn : (0 : Int) ≤ v.length := by unfold Vec.length; omega
  obtain ⟨r, hr, hP⟩ := forRange_invariant
    (fun i result => (Vec.at cfg v i).bind fun x => Outcome.ok (op result x))
    (fun i r => r = (v._mat.take i.toNat).foldl op init)
    0 v.length init hnn (by simp)
    (by
      intro i r hi0 hi hr
      refine ⟨op r (v._mat.getD i.toNat d), ?_, ?_⟩
      · simp only []
        rw [Vec.at_ok cfg v d hv i hi0 hi, Outcome.bind_ok]
      · have h1 : (i + 1).toNat = i.toNat + 1 := by omega
        have h2 : i.toNat < v._mat.length := by unfold Vec.length at hi; omega
        show _ = (v._mat.take (i + 1).toNat).foldl op init
        rw [h1, take_succ_getD _ d _ h2, List.foldl_append, hr]
        rfl)
  have hall : v.length.toNat = v._mat.length := by unfold Vec.length; omega
  rw [hr, hP, hall, List.take_length]

/-- C7: on every owning vector, of any length `n ≥ 0`, in any build, `sum()`
throws nothing and returns the left fold of the cells with `+` from `0`
(`0 + v.at(0) + ... + v.at(n-1)`, each `at(i)` returning the `i`-th cell);
this holds for the `Vec`/`RowVec` and the `ColVec` dynamic types, and the
free function `sum(v)` returns the same; `sum([]) = 0`, `sum([1,2,3]) = 6`. -/
theorem sum_eq_fold [Zero T] [Add T] (cfg : Config) (v : Vec T) (hv : v.Owns) :
    (∀ i : Nat, (i : Int) < v.length → Vec.at cfg v i = Outcome.ok (v._mat.getD i 0)) ∧
    Vec.sum cfg v = Outcome.ok (v._mat.foldl (fun acc x => acc + x) 0) ∧
    ColVec.sum cfg v = Outcome.ok (v._mat.foldl (fun acc x => acc + x) 0) ∧
    sum cfg v = Vec.sum cfg v ∧
    Vec.sum allChecks (Vec.ofCells ([] : List Int)) = Outcome.ok 0 ∧
    sum allChecks (Vec.ofCells ([] : List Int)) = Outcome.ok 0 ∧
    Vec.sum allChecks (Vec.ofCells ([1, 2, 3] : List Int)) = Outcome.ok 6 ∧
    sum allChecks (Vec.ofCells ([1, 2, 3] : List Int)) = Outcome.ok 6 := by
  have key := reduce_loop_ok cfg (fun acc x : T => acc + x) 0 0 v hv
  refine ⟨?_, key, key, rfl, by decide, by decide, by decide, by decide⟩
  intro i hi
  simpa using Vec.at_ok cfg v 0 hv i (by omega) hi

/-- Witness for C7 on the vector `[1,2,3]`. -/
theorem sum_eq_fold_witness :
    (Vec.ofCells ([1, 2, 3] : List Int)).Owns ∧
    Vec.sum allChecks (Vec.ofCells ([1, 2, 3] : List Int))
      = Outcome.ok (([1, 2, 3] : List Int).foldl (fun acc x => acc + x) 0) :=
  ⟨by decide, (sum_eq_fold allChecks (Vec.ofCells ([1, 2, 3] : List Int)) (by decide)).2.1⟩

/-- C8: on every owning vector, of any length `n ≥ 0`, in any build,
`prod()` throws nothing and returns the left fold of the cells with `*` from
`1` (`1 * v.at(0) * ... * v.at(n-1)`, each `at(i)` returning the `i`-th
cell); this holds for the `Vec`/`RowVec` and the `ColVec` dynamic types, and
the free function `prod(v)` returns the same; `prod([]) = 1`,
`prod([1,2,3]) = 6`. -/
theorem prod_eq_fold [One T] [Mul T] (cfg : Config) (v : Vec T) (hv : v.Owns) :
    (∀ i : Nat, (i : Int) < v.length → Vec.at cfg v i = Outcome.ok (v._mat.getD i 1)) ∧
    Vec.prod cfg v = Outcome.ok (v._mat.foldl (fun acc x => acc * x) 1) ∧
    ColVec.prod cfg v = Outcome.ok (v._mat.foldl (fun acc x => acc * x) 1) ∧
    prod cfg v = Vec.prod cfg v ∧
    Vec.prod allChecks (Vec.ofCells ([] : List Int)) = Outcome.ok 1 ∧
    prod allChecks (Vec.ofCells ([] : List Int)) = Outcome.ok 1 ∧
    Vec.prod allChecks (Vec.ofCells ([1, 2, 3] : List Int)) = Outcome.ok 6 ∧
    prod allChecks (Vec.ofCells ([1, 2, 3] : List Int)) = Outcome.ok 6 := by
  have key := reduce_loop_ok cfg (fun acc x : T => acc * x) 1 1 v hv
  refine ⟨?_, key, key, rfl, by decide, by decide, by decide, by decide⟩
  intro i hi
  simpa using Vec.at_ok cfg v 1 hv i (by omega) hi

/-- Witness for C8 on the vector `[1,2,3]`. -/
theorem prod_eq_fold_witness :
    (Vec.ofCells ([1, 2, 3] : List Int)).Owns ∧
    Vec.prod allChecks (Vec.ofCells ([1, 2, 3] : List Int))
      = Outcome.ok (([1, 2, 3] : List Int).foldl (fun acc x => acc * x) 1) :=
  ⟨by decide, (prod_eq_fold allChecks (Vec.ofCells ([1, 2, 3] : List Int)) (by decide)).2.1⟩

/-! ## C9: casted constructors -/

theorem Vec.at_ok_cell {T1 : Type} (cfg : Config) (v : Vec T1) (hv : v.Owns) (i : Int)
    (h0 : 0 ≤ i) (h1 : i < v.length) :
    ∃ x, v._mat[i.toNat]? = some x ∧ Vec.at cfg v i = Outcome.ok x := by
  have hlt : i.toNat < v._mat.length := by
    unfold Vec.Owns at hv; unfold Vec.length at h1; omega
  refine ⟨v._mat.get ⟨i.toNat, hlt⟩, ?_, ?_⟩
  · simp [List.getElem?_eq_getElem hlt]
  · rw [Vec.at_ok cfg v (v._mat.get ⟨i.toNat, hlt⟩) hv i h0 h1]
    simp [List.getD, hlt]

theorem malloc_length (junk : Nat → T) (n : Int) : (malloc junk n).length = n.toNat := by
  simp [malloc]

/-- The copy loop of the casted constructors: starting from an owning
destination of the length of the owning source, it ends normally with the
converted cells of the source in the destination and the shape untouched. -/
theorem cast_loop_ok {T1 : Type} (conv : T1 → T) (cfg : Config) (s : Vec T1) (d0 : Vec T)
    (hs : s.Owns) (hd : d0.Owns) (hlen : d0.length = s.length) :
    forRange 0 s.length
      (fun i obj => (Vec.at cfg s i).bind fun x => Vec.set cfg obj i (conv x)) d0
    = Outcome.ok { d0 with _mat := s._mat.map conv } := by
  have hsl : (s._mat.length : Int) = s._n_elems := hs
  have hdl : (d0._mat.length : Int) = d0._n_elems := hd
  have hlen' : d0._n_elems = s._n_elems := hlen
  have hnn : (0 : Int) ≤ s.length := by unfold Vec.length; omega
  obtain ⟨r, hr, hP⟩ := forRange_invariant
    (fun i obj => (Vec.at cfg s i).bind fun x => Vec.set cfg obj i (conv x))
    (fun i obj => obj._n_elems = d0._n_elems ∧ obj._n_rows = d0._n_rows ∧
      obj._n_cols = d0._n_cols ∧ obj._mat.length = d0._mat.length ∧
      ∀ j : Nat, j < i.toNat → obj._mat[j]? = (s._mat[j]?).map conv)
    0 s.length d0 hnn ⟨rfl, rfl, rfl, rfl, by intro j hj; simp at hj⟩
    (by
      rintro i obj hi0 hi ⟨p1, p2, p3, p4, p5⟩
      have hi' : i < s._n_elems := hi
      obtain ⟨x, hx, hat⟩ := Vec.at_ok_cell cfg s hs i hi0 hi
      have hobj : obj.Owns := by unfold Vec.Owns; omega
      have hio : i < obj.length := by unfold Vec.length; omega
      refine ⟨{ obj with _mat := obj._mat.set i.toNat (conv x) }, ?_, p1, p2, p3, ?_, ?_⟩
      · simp only []
        rw [hat, Outcome.bind_ok, Vec.set_ok cfg obj (conv x) hobj i hi0 hio]
      · simpa using p4
      · intro j hj
        have hlt : i.toNat < obj._mat.length := by omega
        by_cases hji : j = i.toNat
        · subst hji
          simp [hlt, hx]
        · have hj' : j < i.toNat := by omega
          have hne : i.toNat ≠ j := fun h => hji h.symm
          simp only []
          rw [List.getElem?_set_ne hne]
          exact p5 j hj')
  obtain ⟨p1, p2, p3, p4, p5⟩ := hP
  rw [hr]
  have hmat : r._mat = s._mat.map conv := by
    apply List.ext_getElem?
    intro j
    by_cases hj : j < s.length.toNat
    · rw [p5 j hj]; simp
    · have h1 : r._mat.length ≤ j := by unfold Vec.length at hj; omega
      have h2 : (s._mat.map conv).length ≤ j := by
        rw [List.length_map]; unfold Vec.length at hj; omega
      rw [List.getElem?_eq_none h1, List.getElem?_eq_none h2]
  obtain ⟨⟨rm, rr, rc⟩, re⟩ := r
  obtain ⟨⟨dm, dr, dc⟩, de⟩ := d0
  simp only at p1 p2 p3 hmat
  subst p1 p2 p3 hmat
  rfl

/-- The `ColVec` casted constructors succeed on every owning source, in any
build and whatever the members held before: the result has the length of the
source, column shape, and the converted cells. -/
theorem ColVec.ColVec_cast_ok {T1 : Type} (conv : T1 → T) (cfg : Config) (junk : Nat → T)
    (this : Vec T) (s : Vec T1) (hs : s.Owns) :
    ColVec.ColVec_cast conv cfg junk this s
      = Outcome.ok ⟨⟨s._mat.map conv, s.length, 1⟩, s.length⟩ ∧
    ColVec.ColVec_cast_ptr conv cfg junk this s
      = Outcome.ok ⟨⟨s._mat.map conv, s.length, 1⟩, s.length⟩ := by
  have hsl : (s._mat.length : Int) = s._n_elems := hs
  have key : ColVec.ColVec_cast conv cfg junk this s
      = Outcome.ok ⟨⟨s._mat.map conv, s.length, 1⟩, s.length⟩ := by
    unfold ColVec.ColVec_cast ColVec._allocate
    rw [if_neg (by rintro ⟨_, h⟩; unfold Vec.length at h; omega), Outcome.bind_ok,
      ColVec.set_eq_Vec_set]
    rw [cast_loop_ok conv cfg s _ hs
      (by unfold Vec.Owns; simp only [malloc_length]; unfold Vec.length; omega) rfl]
  exact ⟨key, key⟩

/-- The `Vec` and `RowVec` casted constructors succeed on every owning source
when the emptiness check is compiled out or the member `_n_elems` happened to
be non-negative before construction: the result has the length of the source,
row shape, and the converted cells. -/
theorem Vec.Vec_cast_ok {T1 : Type} (conv : T1 → T) (cfg : Config) (junk : Nat → T)
    (this : Vec T) (s : Vec T1) (hs : s.Owns)
    (hmem : cfg.ORCA_DISABLE_EMPTY_CHECKS = true ∨ 0 ≤ this._n_elems) :
    Vec.Vec_cast conv cfg junk this s
      = Outcome.ok ⟨⟨s._mat.map conv, 1, s.length⟩, s.length⟩ ∧
    Vec.Vec_cast_ptr conv cfg junk this s
      = Outcome.ok ⟨⟨s._mat.map conv, 1, s.length⟩, s.length⟩ ∧
    RowVec.RowVec_cast conv cfg junk this s
      = Outcome.ok ⟨⟨s._mat.map conv, 1, s.length⟩, s.length⟩ ∧
    RowVec.RowVec_cast_ptr conv cfg junk this s
      = Outcome.ok ⟨⟨s._mat.map conv, 1, s.length⟩, s.length⟩ := by
  have hsl : (s._mat.length : Int) = s._n_elems := hs
  have key : Vec.Vec_cast conv cfg junk this s
      = Outcome.ok ⟨⟨s._mat.map conv, 1, s.length⟩, s.length⟩ := by
    unfold Vec.Vec_cast Vec._allocate
    rw [if_neg (by
      rintro ⟨h1, h2⟩
      rcases hmem with h | h
      · rw [h] at h1; cases h1
      · omega), Outcome.bind_ok]
    rw [cast_loop_ok conv cfg s _ hs
      (by unfold Vec.Owns; simp only [malloc_length]; unfold Vec.length; omega) rfl]
  exact ⟨key, key, key, key⟩

/-- C9 (the code at the failing input): with all checks enabled, casting the
integer vector `[1,2,3]` into an object whose uninitialised member `_n_elems`
holds `-1` throws `EmptyElementError` in the four `Vec`/`RowVec` casted
constructors (`Vec::_allocate` tests that member instead of the requested
count), while the `ColVec` casted constructors, whose `_allocate` tests the
requested count, build the vector `[1,2,3]` of length 3 from the same state. -/
theorem cast_constructor_raises :
    Vec.Vec_cast (fun x : Int => (x : Rat)) allChecks (fun _ => 0) ⟨⟨[], 0, 0⟩, -1⟩
        (Vec.ofCells [1, 2, 3]) = Outcome.raise ORCAExcept.EmptyElementError ∧
    Vec.Vec_cast_ptr (fun x : Int => (x : Rat)) allChecks (fun _ => 0) ⟨⟨[], 0, 0⟩, -1⟩
        (Vec.ofCells [1, 2, 3]) = Outcome.raise ORCAExcept.EmptyElementError ∧
    RowVec.RowVec_cast (fun x : Int => (x : Rat)) allChecks (fun _ => 0) ⟨⟨[], 0, 0⟩, -1⟩
        (Vec.ofCells [1, 2, 3]) = Outcome.raise ORCAExcept.EmptyElementError ∧
    RowVec.RowVec_cast_ptr (fun x : Int => (x : Rat)) allChecks (fun _ => 0) ⟨⟨[], 0, 0⟩, -1⟩
        (Vec.ofCells [1, 2, 3]) = Outcome.raise ORCAExcept.EmptyElementError ∧
    ColVec.ColVec_cast (fun x : Int => (x : Rat)) allChecks (fun _ => 0) ⟨⟨[], 0, 0⟩, -1⟩
        (Vec.ofCells [1, 2, 3]) = Outcome.ok ⟨⟨[1, 2, 3], 3, 1⟩, 3⟩ ∧
    ColVec.ColVec_cast_ptr (fun x : Int => (x : Rat)) allChecks (fun _ => 0) ⟨⟨[], 0, 0⟩, -1⟩
        (Vec.ofCells [1, 2, 3]) = Outcome.ok ⟨⟨[1, 2, 3], 3, 1⟩, 3⟩ := by
  refine ⟨rfl, rfl, rfl, rfl, ?_, ?_⟩
  · exact (ColVec.ColVec_cast_ok _ _ _ _ _ (by decide)).1
  · exact (ColVec.ColVec_cast_ok _ _ _ _ _ (by decide)).2

/-- Two loop bodies that agree on the indices visited give the same loop. -/
theorem forLoop_congr {σ : Type} (f g : Int → σ → Outcome σ) :
    ∀ (k : Nat) (lo : Int) (s : σ),
      (∀ i t, lo ≤ i → i < lo + (k : Int) → f i t = g i t) →
      forLoop f k lo s = forLoop g k lo s := by
  intro k
  induction k with
  | zero => intro lo s _; rfl
  | succ k ih =>
    intro lo s h
    rw [forLoop, forLoop, h lo s (le_refl _) (by push_cast; omega)]
    congr 1
    funext s1
    exact ih (lo + 1) s1 (fun i t h1 h2 => h i t (by omega) (by push_cast; omega))

/-- The initializer-list constructor builds `Vec.ofCells l` (length `k`, the
listed cells, row shape) when the emptiness check is compiled out or the
member `_n_elems` happened to be non-negative before construction. -/
theorem Vec.Vec_initializer_list_ok (cfg : Config) (junk : Nat → T) (this : Vec T) (l : List T)
    (hmem : cfg.ORCA_DISABLE_EMPTY_CHECKS = true ∨ 0 ≤ this._n_elems) :
    Vec.Vec_initializer_list cfg junk this l = Outcome.ok (Vec.ofCells l) := by
  unfold Vec.Vec_initializer_list Vec._allocate
  rw [if_neg (by
    rintro ⟨h1, h2⟩
    rcases hmem with h | h
    · rw [h] at h1; cases h1
    · omega), Outcome.bind_ok]
  have hs : (Vec.ofCells l).Owns := rfl
  have hcongr : forRange 0 (l.length : Int)
      (fun i obj => (load l i).bind fun x => Vec.set cfg obj i x)
      ({ _mat := malloc junk (l.length : Int), _n_elems := (l.length : Int),
         _n_cols := (l.length : Int), _n_rows := 1 } : Vec T)
    = forRange 0 (Vec.ofCells l).length
      (fun i obj => (Vec.at cfg (Vec.ofCells l) i).bind fun x => Vec.set cfg obj i (id x))
      ({ _mat := malloc junk (l.length : Int), _n_elems := (l.length : Int),
         _n_cols := (l.length : Int), _n_rows := 1 } : Vec T) := by
    unfold forRange
    apply forLoop_congr
    intro i t h0 h1
    have h2 : i ≤ (Vec.ofCells l).length := by
      have : (Vec.ofCells l).length = (l.length : Int) := rfl
      omega
    rw [Vec.at, Vec._address_ok cfg _ i h0 h2, Outcome.bind_ok]
    rfl
  rw [hcongr, cast_loop_ok id cfg (Vec.ofCells l)
    ({ _mat := malloc junk (l.length : Int), _n_elems := (l.length : Int),
       _n_cols := (l.length : Int), _n_rows := 1 } : Vec T) hs
    (by unfold Vec.Owns; simp only [malloc_length]; omega) rfl]
  simp [Vec.ofCells]

/-! ## C10: the 2-D accessors of owning vectors -/

/-- C10: with bounds checks compiled in, on a `Vec`/`RowVec` object
`at(row, col)` and `set(row, col, x)` throw `OutOfBoundsError` whenever
`row ≠ 0` and for `row = 0` are `at(col)` and `set(col, x)` (same result, same
resulting state); on a `ColVec` object they throw `OutOfBoundsError` whenever
`col ≠ 0` and for `col = 0` are `at(row)` and `set(row, x)`. -/
theorem at2_set2_delegate (cfg : Config) (hB : cfg.ORCA_DISABLE_BOUNDS_CHECKS = false)
    (v : Vec T) (row col : Int) (x : T) :
    (row ≠ 0 → Vec.at2 cfg v row col = Outcome.raise ORCAExcept.OutOfBoundsError ∧
        Vec.set2 cfg v row col x = Outcome.raise ORCAExcept.OutOfBoundsError) ∧
    (Vec.at2 cfg v 0 col = Vec.at cfg v col ∧ Vec.set2 cfg v 0 col x = Vec.set cfg v col x) ∧
    (col ≠ 0 → ColVec.at2 cfg v row col = Outcome.raise ORCAExcept.OutOfBoundsError ∧
        ColVec.set2 cfg v row col x = Outcome.raise ORCAExcept.OutOfBoundsError) ∧
    (ColVec.at2 cfg v row 0 = ColVec.at cfg v row ∧
        ColVec.set2 cfg v row 0 x = ColVec.set cfg v row x) := by
  refine ⟨?_, ⟨?_, ?_⟩, ?_, ⟨?_, ?_⟩⟩
  · intro h
    exact ⟨by unfold Vec.at2; rw [if_pos ⟨hB, h⟩], by unfold Vec.set2; rw [if_pos ⟨hB, h⟩]⟩
  · unfold Vec.at2 Vec.at; rw [if_neg (fun h => h.2 rfl)]
  · unfold Vec.set2 Vec.set; rw [if_neg (fun h => h.2 rfl)]
  · intro h
    exact ⟨by unfold ColVec.at2; rw [if_pos ⟨hB, h⟩], by unfold ColVec.set2; rw [if_pos ⟨hB, h⟩]⟩
  · unfold ColVec.at2 ColVec.at; rw [if_neg (fun h => h.2 rfl)]
  · unfold ColVec.set2 ColVec.set; rw [if_neg (fun h => h.2 rfl)]

/-- Witness for C10 on the row vector and the column vector `[1,2,3]`. -/
theorem at2_set2_delegate_witness :
    allChecks.ORCA_DISABLE_BOUNDS_CHECKS = false ∧
    Vec.at2 allChecks (⟨⟨[1, 2, 3], 1, 3⟩, 3⟩ : Vec Int) 1 2
      = Outcome.raise ORCAExcept.OutOfBoundsError ∧
    Vec.set2 allChecks (⟨⟨[1, 2, 3], 1, 3⟩, 3⟩ : Vec Int) 1 2 9
      = Outcome.raise ORCAExcept.OutOfBoundsError ∧
    Vec.at2 allChecks (⟨⟨[1, 2, 3], 1, 3⟩, 3⟩ : Vec Int) 0 2 = Outcome.ok 3 ∧
    ColVec.at2 allChecks (⟨⟨[1, 2, 3], 3, 1⟩, 3⟩ : Vec Int) 2 1
      = Outcome.raise ORCAExcept.OutOfBoundsError ∧
    ColVec.set2 allChecks (⟨⟨[1, 2, 3], 3, 1⟩, 3⟩ : Vec Int) 2 1 9
      = Outcome.raise ORCAExcept.OutOfBoundsError ∧
    ColVec.at2 allChecks (⟨⟨[1, 2, 3], 3, 1⟩, 3⟩ : Vec Int) 2 0 = Outcome.ok 3 :=
  ⟨by decide,
    ((at2_set2_delegate allChecks (by decide) (⟨⟨[1, 2, 3], 1, 3⟩, 3⟩ : Vec Int) 1 2 9).1
      (by decide)).1,
    ((at2_set2_delegate allChecks (by decide) (⟨⟨[1, 2, 3], 1, 3⟩, 3⟩ : Vec Int) 1 2 9).1
      (by decide)).2,
    ((at2_set2_delegate allChecks (by decide) (⟨⟨[1, 2, 3], 1, 3⟩, 3⟩ : Vec Int) 0 2 9).2.1.1).trans
      (by decide),
    ((at2_set2_delegate allChecks (by decide) (⟨⟨[1, 2, 3], 3, 1⟩, 3⟩ : Vec Int) 2 1 9).2.2.1
      (by decide)).1,
    ((at2_set2_delegate allChecks (by decide) (⟨⟨[1, 2, 3], 3, 1⟩, 3⟩ : Vec Int) 2 1 9).2.2.1
      (by decide)).2,
    ((at2_set2_delegate allChecks (by decide) (⟨⟨[1, 2, 3], 3, 1⟩, 3⟩ : Vec Int) 2 0 9).2.2.2.1).trans
      (by decide)⟩

/-! ## C11: the 2-D read of a column view -/

/-- With bounds checks compiled in, the 2-D read of a pointer-built column
view throws when the column argument is not the column of the view, and
otherwise reads the parent at `(_col, row)`. -/
theorem MatCol.at2_spec (cfg : Config) (hB : cfg.ORCA_DISABLE_BOUNDS_CHECKS = false)
    (this : Vec T) (m0 m : Mat T) (c row col : Int) :
    (col ≠ c → MatCol.at2 cfg (MatCol.MatCol_ptr this m0 c) m row col
        = Outcome.raise ORCAExcept.OutOfBoundsError) ∧
    MatCol.at2 cfg (MatCol.MatCol_ptr this m0 c) m row c = Mat.at cfg m c row := by
  constructor
  · intro h
    unfold MatCol.at2
    rw [if_pos ⟨hB, h⟩]
  · unfold MatCol.at2
    rw [if_neg (fun h => h.2 rfl)]
    rfl

/-- C11 (the code at the failing input): with all checks enabled, on the 2x2
matrix `[[1,2],[3,4]]` and the column view of column 0, the 2-D read
`colView.at(1, 0)` returns 2, which is `m.at(0, 1)`, while `m.at(1, 0)` and the
1-D read `colView.at(1)` return 3: `MatCol::at(row, col)` passes its
coordinates to the parent in the order `(_col, row)`.  A column argument other
than the column of the view does throw `OutOfBoundsError`. -/
theorem colview_at2_swaps_coordinates :
    MatCol.at2 allChecks (MatCol.MatCol_ptr ⟨⟨[], 0, 0⟩, 0⟩ (⟨[1, 2, 3, 4], 2, 2⟩ : Mat Int) 0)
        ⟨[1, 2, 3, 4], 2, 2⟩ 1 0 = Outcome.ok 2 ∧
    Mat.at allChecks (⟨[1, 2, 3, 4], 2, 2⟩ : Mat Int) 0 1 = Outcome.ok 2 ∧
    Mat.at allChecks (⟨[1, 2, 3, 4], 2, 2⟩ : Mat Int) 1 0 = Outcome.ok 3 ∧
    MatCol.at allChecks (MatCol.MatCol_ptr ⟨⟨[], 0, 0⟩, 0⟩ (⟨[1, 2, 3, 4], 2, 2⟩ : Mat Int) 0)
        ⟨[1, 2, 3, 4], 2, 2⟩ 1 = Outcome.ok 3 ∧
    MatCol.at2 allChecks (MatCol.MatCol_ptr ⟨⟨[], 0, 0⟩, 0⟩ (⟨[1, 2, 3, 4], 2, 2⟩ : Mat Int) 0)
        ⟨[1, 2, 3, 4], 2, 2⟩ 1 1 = Outcome.raise ORCAExcept.OutOfBoundsError := by
  decide

/-! ## C12: allocation -/

/-- With the emptiness check compiled in, `ColVec::_allocate(n)` throws
exactly when `n < 0`, whatever the object held before, and `n = 0` gives a
vector of length 0. -/
theorem ColVec._allocate_raise_iff_negative (cfg : Config) (hE : cfg.ORCA_DISABLE_EMPTY_CHECKS = false)
    (junk : Nat → T) (this : Vec T) (n : Int) :
    (ColVec._allocate cfg junk this n = Outcome.raise ORCAExcept.EmptyElementError ↔ n < 0) ∧
    ColVec._allocate cfg junk this 0 = Outcome.ok ⟨⟨[], 0, 1⟩, 0⟩ := by
  constructor
  · unfold ColVec._allocate
    constructor
    · intro h
      split at h
      · rename_i hc; exact hc.2
      · cases h
    · intro h
      rw [if_pos ⟨hE, h⟩]
  · unfold ColVec._allocate
    rw [if_neg (by rintro ⟨_, h⟩; omega)]
    rfl

/-- With the emptiness check compiled in, `Vec::_allocate(n)` throws exactly
when the member `_n_elems` held a negative value before the call, whatever
the requested count `n`. -/
theorem Vec._allocate_raise_iff (cfg : Config) (hE : cfg.ORCA_DISABLE_EMPTY_CHECKS = false)
    (junk : Nat → T) (this : Vec T) (n : Int) :
    Vec._allocate cfg junk this n = Outcome.raise ORCAExcept.EmptyElementError
      ↔ this._n_elems < 0 := by
  unfold Vec._allocate
  constructor
  · intro h
    split at h
    · rename_i hc; exact hc.2
    · cases h
  · intro h
    rw [if_pos ⟨hE, h⟩]

/-- C12 (the code at the failing input): with all checks enabled,
`Vec::_allocate(-1)` (also reached through `RowVec(-1)`) on an object whose
member `_n_elems` holds 0 does not throw and leaves a vector of length -1,
and `Vec::_allocate(3)` on an object whose member `_n_elems` holds -1 throws
`EmptyElementError`; `ColVec::_allocate` throws for -1 and accepts 3 and 0 from
the same object states. -/
theorem vec_allocate_tests_member :
    Vec._allocate allChecks (fun _ => (0 : Int)) ⟨⟨[], 0, 0⟩, 0⟩ (-1)
      = Outcome.ok ⟨⟨[], 1, -1⟩, -1⟩ ∧
    RowVec.RowVec_elements allChecks (fun _ => (0 : Int)) ⟨⟨[], 0, 0⟩, 0⟩ (-1)
      = Outcome.ok ⟨⟨[], 1, -1⟩, -1⟩ ∧
    Vec._allocate allChecks (fun _ => (0 : Int)) ⟨⟨[], 0, 0⟩, -1⟩ 3
      = Outcome.raise ORCAExcept.EmptyElementError ∧
    RowVec.RowVec_elements allChecks (fun _ => (0 : Int)) ⟨⟨[], 0, 0⟩, -1⟩ 3
      = Outcome.raise ORCAExcept.EmptyElementError ∧
    Vec._allocate allChecks (fun _ => (0 : Int)) ⟨⟨[], 0, 0⟩, -1⟩ 0
      = Outcome.raise ORCAExcept.EmptyElementError ∧
    ColVec._allocate allChecks (fun _ => (0 : Int)) ⟨⟨[], 0, 0⟩, 0⟩ (-1)
      = Outcome.raise ORCAExcept.EmptyElementError ∧
    ColVec._allocate allChecks (fun _ => (0 : Int)) ⟨⟨[], 0, 0⟩, -1⟩ 3
      = Outcome.ok ⟨⟨[0, 0, 0], 3, 1⟩, 3⟩ ∧
    ColVec._allocate allChecks (fun _ => (0 : Int)) ⟨⟨[], 0, 0⟩, -1⟩ 0
      = Outcome.ok ⟨⟨[], 0, 1⟩, 0⟩ := by
  decide

/-! ## C14: shape of the views -/

/-- The pointer constructors and the value constructor of the row view give
the claimed shapes: length and column count `C`, one row; length and row
count `R`, one column. -/
theorem view_shape_ok (this : Vec T) (m : Mat T) (k : Int) :
    ((MatRow.MatRow_ptr this m k).toVec.length = m.cols ∧
      (MatRow.MatRow_ptr this m k)._n_rows = 1 ∧ (MatRow.MatRow_ptr this m k)._n_cols = m.cols) ∧
    ((MatRow.MatRow_value this m k).toVec.length = m.cols ∧
      (MatRow.MatRow_value this m k)._n_rows = 1 ∧
      (MatRow.MatRow_value this m k)._n_cols = m.cols) ∧
    ((MatCol.MatCol_ptr this m k).toVec.length = m.rows ∧
      (MatCol.MatCol_ptr this m k)._n_rows = m.rows ∧ (MatCol.MatCol_ptr this m k)._n_cols = 1) ∧
    ((MatCol.MatCol_value this m k).toVec.length = m.rows ∧
      (MatCol.MatCol_value this m k)._n_rows = m.cols ∧
      (MatCol.MatCol_value this m k)._n_cols = 1) :=
  ⟨⟨rfl, rfl, rfl⟩, ⟨rfl, rfl, rfl⟩, ⟨rfl, rfl, rfl⟩, ⟨rfl, rfl, rfl⟩⟩

/-- C14 (the code at the failing input): for the 2x3 matrix
`[[1,2,3],[4,5,6]]`, the column view of column 0 built by the value
constructor `MatCol(Mat<T> matrix, index_t col)` has `length() = 2` and one
column but row count 3 (`_n_rows = matrix.cols()`), so `length ≠ rows*cols`;
the pointer constructor gives row count 2. -/
theorem colview_value_constructor_shape :
    (MatCol.MatCol_value ⟨⟨[], 0, 0⟩, 0⟩ (⟨[1, 2, 3, 4, 5, 6], 2, 3⟩ : Mat Int) 0).toVec.length = 2 ∧
    (MatCol.MatCol_value ⟨⟨[], 0, 0⟩, 0⟩ (⟨[1, 2, 3, 4, 5, 6], 2, 3⟩ : Mat Int) 0)._n_rows = 3 ∧
    (MatCol.MatCol_value ⟨⟨[], 0, 0⟩, 0⟩ (⟨[1, 2, 3, 4, 5, 6], 2, 3⟩ : Mat Int) 0)._n_cols = 1 ∧
    (MatCol.MatCol_value ⟨⟨[], 0, 0⟩, 0⟩ (⟨[1, 2, 3, 4, 5, 6], 2, 3⟩ : Mat Int) 0).toVec.length
      ≠ (MatCol.MatCol_value ⟨⟨[], 0, 0⟩, 0⟩ (⟨[1, 2, 3, 4, 5, 6], 2, 3⟩ : Mat Int) 0)._n_rows
        * (MatCol.MatCol_value ⟨⟨[], 0, 0⟩, 0⟩ (⟨[1, 2, 3, 4, 5, 6], 2, 3⟩ : Mat Int) 0)._n_cols ∧
    (MatCol.MatCol_ptr ⟨⟨[], 0, 0⟩, 0⟩ (⟨[1, 2, 3, 4, 5, 6], 2, 3⟩ : Mat Int) 0)._n_rows = 2 := by
  decide

/-! ## C15: the switches of `dot` -/

/-- C15 (the code at the failing input): in the build where only
`ORCA_DISABLE_DIMENSIONS_CHECKS` is defined, `dot([1,2], [1,2,3])` still
throws `BadDimensionsError`; in the build where only
`ORCA_DISABLE_BOUNDS_CHECKS` is defined it does not (it returns 5): the length
comparison of `dot` is guarded by the bounds switch.  The emptiness check
does follow its own switch. -/
theorem dot_dimension_check_follows_bounds_switch :
    (dot onlyDimensionsDisabled (Vec.ofCells [1, 2] : Vec Int) (Vec.ofCells [1, 2, 3] : Vec Int)
      : Outcome Int) = Outcome.raise ORCAExcept.BadDimensionsError ∧
    (dot onlyBoundsDisabled (Vec.ofCells [1, 2] : Vec Int) (Vec.ofCells [1, 2, 3] : Vec Int)
      : Outcome Int) = Outcome.ok 5 ∧
    (dot onlyEmptyDisabled (Vec.ofCells [1, 2] : Vec Int) (Vec.ofCells [1, 2, 3] : Vec Int)
      : Outcome Int) = Outcome.raise ORCAExcept.BadDimensionsError ∧
    (dot onlyEmptyDisabled (Vec.ofCells [] : Vec Int) (Vec.ofCells [] : Vec Int)
      : Outcome Int) = Outcome.undefined ∧
    (dot onlyDimensionsDisabled (Vec.ofCells [] : Vec Int) (Vec.ofCells [] : Vec Int)
      : Outcome Int) = Outcome.raise ORCAExcept.EmptyElementError ∧
    (dot onlyBoundsDisabled (Vec.ofCells [] : Vec Int) (Vec.ofCells [] : Vec Int)
      : Outcome Int) = Outcome.raise ORCAExcept.EmptyElementError := by
  decide

/-! ## C18: the initializer-list constructors -/

/-- C18 (the code at the failing input): with all checks enabled, building a
vector from the list `[1,2,3]` in an object whose uninitialised member
`_n_elems` holds -1 throws `EmptyElementError` in the `Vec`, `RowVec` and
`ColVec` initializer-list constructors (all three run `Vec::_allocate`, which
tests that member); from an object whose member holds 0 they build the
vector `[1,2,3]` of length 3. -/
theorem initializer_list_constructor_raises :
    Vec.Vec_initializer_list allChecks (fun _ => (0 : Int)) ⟨⟨[], 0, 0⟩, -1⟩ [1, 2, 3]
      = Outcome.raise ORCAExcept.EmptyElementError ∧
    RowVec.RowVec_initializer_list allChecks (fun _ => (0 : Int)) ⟨⟨[], 0, 0⟩, -1⟩ [1, 2, 3]
      = Outcome.raise ORCAExcept.EmptyElementError ∧
    ColVec.ColVec_initializer_list allChecks (fun _ => (0 : Int)) ⟨⟨[], 0, 0⟩, -1⟩ [1, 2, 3]
      = Outcome.raise ORCAExcept.EmptyElementError ∧
    Vec.Vec_initializer_list allChecks (fun _ => (0 : Int)) ⟨⟨[], 0, 0⟩, -1⟩ []
      = Outcome.raise ORCAExcept.EmptyElementError ∧
    Vec.Vec_initializer_list allChecks (fun _ => (0 : Int)) ⟨⟨[], 0, 0⟩, 0⟩ [1, 2, 3]
      = Outcome.ok ⟨⟨[1, 2, 3], 1, 3⟩, 3⟩ := by
  decide

/-! ## C13: shape after allocation, construction and `set` -/

/-- A loop that ends normally keeps every property its body keeps. -/
theorem forLoop_preserves {σ : Type} (body : Int → σ → Outcome σ) (Q : σ → Prop)
    (hb : ∀ i s s1, Q s → body i s = Outcome.ok s1 → Q s1) :
    ∀ (k : Nat) (lo : Int) (s s1 : σ), Q s → forLoop body k lo s = Outcome.ok s1 → Q s1 := by
  intro k
  induction k with
  | zero =>
    intro lo s s1 hs h
    simp only [forLoop, Outcome.ok.injEq] at h
    subst h
    exact hs
  | succ k ih =>
    intro lo s s1 hs h
    rw [forLoop] at h
    cases hbody : body lo s with
    | ok s2 =>
      rw [hbody, Outcome.bind_ok] at h
      exact ih _ _ _ (hb _ _ _ hs hbody) h
    | raise e => rw [hbody] at h; cases h
    | undefined => rw [hbody] at h; cases h

/-- The state left by a successful `Vec::_allocate(n)`. -/
theorem Vec._allocate_ok_eq (cfg : Config) (junk : Nat → T) (this v : Vec T) (n : Int)
    (h : Vec._allocate cfg junk this n = Outcome.ok v) : v = ⟨⟨malloc junk n, 1, n⟩, n⟩ := by
  unfold Vec._allocate at h
  split at h
  · cases h
  · simp only [Outcome.ok.injEq] at h
    exact h.symm

/-- The state left by a successful `ColVec::_allocate(n)`. -/
theorem ColVec._allocate_ok_state (cfg : Config) (junk : Nat → T) (this v : Vec T) (n : Int)
    (h : ColVec._allocate cfg junk this n = Outcome.ok v) : v = ⟨⟨malloc junk n, n, 1⟩, n⟩ := by
  unfold ColVec._allocate at h
  split at h
  · cases h
  · simp only [Outcome.ok.injEq] at h
    exact h.symm

/-- A successful `set(index, elem)` changes neither `_n_elems` nor the shape. -/
theorem Vec.set_keeps_shape (cfg : Config) (v w : Vec T) (i : Int) (x : T)
    (h : Vec.set cfg v i x = Outcome.ok w) :
    w._n_elems = v._n_elems ∧ w._n_rows = v._n_rows ∧ w._n_cols = v._n_cols := by
  unfold Vec.set at h
  cases ha : Vec._address cfg v i with
  | raise e => rw [ha] at h; cases h
  | undefined => rw [ha] at h; cases h
  | ok p =>
    rw [ha, Outcome.bind_ok] at h
    cases hs : store v._mat p x with
    | raise e => rw [hs] at h; cases h
    | undefined => rw [hs] at h; cases h
    | ok buf =>
      rw [hs, Outcome.bind_ok] at h
      simp only [Outcome.ok.injEq] at h
      subst h
      exact ⟨rfl, rfl, rfl⟩

/-- A successful `set(row, col, elem)` of a `Vec`/`RowVec` changes neither
`_n_elems` nor the shape. -/
theorem Vec.set2_keeps_shape (cfg : Config) (v w : Vec T) (row col : Int) (x : T)
    (h : Vec.set2 cfg v row col x = Outcome.ok w) :
    w._n_elems = v._n_elems ∧ w._n_rows = v._n_rows ∧ w._n_cols = v._n_cols := by
  unfold Vec.set2 at h
  split at h
  · cases h
  · exact Vec.set_keeps_shape cfg v w col x h

/-- A successful `set(row, col, elem)` of a `ColVec` changes neither
`_n_elems` nor the shape. -/
theorem ColVec.set2_shape_kept (cfg : Config) (v w : Vec T) (row col : Int) (x : T)
    (h : ColVec.set2 cfg v row col x = Outcome.ok w) :
    w._n_elems = v._n_elems ∧ w._n_rows = v._n_rows ∧ w._n_cols = v._n_cols := by
  unfold ColVec.set2 at h
  split at h
  · cases h
  · exact Vec.set_keeps_shape cfg v w row x h

/-- A copy loop that ends normally leaves `_n_elems` and the shape of the
destination as they were; `read` is the read of the source element. -/
theorem fill_loop_keeps_shape {T1 : Type} (cfg : Config) (read : Int → Outcome T1)
    (conv : T1 → T) (hi : Int) (d v : Vec T)
    (h : forRange 0 hi (fun i obj => (read i).bind fun x => Vec.set cfg obj i (conv x)) d
      = Outcome.ok v) :
    v._n_elems = d._n_elems ∧ v._n_rows = d._n_rows ∧ v._n_cols = d._n_cols := by
  refine forLoop_preserves _
    (fun obj => obj._n_elems = d._n_elems ∧ obj._n_rows = d._n_rows ∧ obj._n_cols = d._n_cols)
    ?_ _ _ d v ⟨rfl, rfl, rfl⟩ h
  intro i s s1 hs hb
  cases hr : read i with
  | raise e => simp only [hr, Outcome.bind_raise] at hb; cases hb
  | undefined => simp only [hr, Outcome.bind_undefined] at hb; cases hb
  | ok x =>
    simp only [hr, Outcome.bind_ok] at hb
    obtain ⟨a1, a2, a3⟩ := Vec.set_keeps_shape cfg s s1 i (conv x) hb
    exact ⟨a1.trans hs.1, a2.trans hs.2.1, a3.trans hs.2.2⟩

/-- A vector built by an initializer-list constructor has row shape and
satisfies `length = rows*cols`. -/
theorem Vec.Vec_initializer_list_shape (cfg : Config) (junk : Nat → T) (this v : Vec T)
    (l : List T) (h : Vec.Vec_initializer_list cfg junk this l = Outcome.ok v) :
    v._n_elems = (l.length : Int) ∧ v._n_rows = 1 ∧ v._n_cols = (l.length : Int) := by
  unfold Vec.Vec_initializer_list at h
  cases ha : Vec._allocate cfg junk this (l.length : Int) with
  | raise e => rw [ha] at h; cases h
  | undefined => rw [ha] at h; cases h
  | ok d =>
    rw [ha, Outcome.bind_ok] at h
    have hd := Vec._allocate_ok_eq cfg junk this d _ ha
    have hk := fill_loop_keeps_shape cfg (fun i => load l i) id d._n_elems d v h
    rw [hd] at hk
    exact hk

/-- A vector built by a `Vec`/`RowVec` casted constructor has row shape. -/
theorem Vec.Vec_cast_shape {T1 : Type} (conv : T1 → T) (cfg : Config) (junk : Nat → T)
    (this v : Vec T) (s : Vec T1) (h : Vec.Vec_cast conv cfg junk this s = Outcome.ok v) :
    v._n_elems = s.length ∧ v._n_rows = 1 ∧ v._n_cols = s.length := by
  unfold Vec.Vec_cast at h
  cases ha : Vec._allocate cfg junk this s.length with
  | raise e => rw [ha] at h; cases h
  | undefined => rw [ha] at h; cases h
  | ok d =>
    rw [ha, Outcome.bind_ok] at h
    have hd := Vec._allocate_ok_eq cfg junk this d _ ha
    have hk := fill_loop_keeps_shape cfg (fun i => Vec.at cfg s i) conv s.length d v h
    rw [hd] at hk
    exact hk

/-- A vector built by a `ColVec` casted constructor has column shape. -/
theorem ColVec.ColVec_cast_shape {T1 : Type} (conv : T1 → T) (cfg : Config) (junk : Nat → T)
    (this v : Vec T) (s : Vec T1) (h : ColVec.ColVec_cast conv cfg junk this s = Outcome.ok v) :
    v._n_elems = s.length ∧ v._n_rows = s.length ∧ v._n_cols = 1 := by
  unfold ColVec.ColVec_cast at h
  cases ha : ColVec._allocate cfg junk this s.length with
  | raise e => rw [ha] at h; cases h
  | undefined => rw [ha] at h; cases h
  | ok d =>
    rw [ha, Outcome.bind_ok] at h
    have hd := ColVec._allocate_ok_state cfg junk this d _ ha
    have hk := fill_loop_keeps_shape cfg (fun i => Vec.at cfg s i) conv s.length d v h
    rw [hd] at hk
    exact hk

/-- Shapes of the owning vectors, for every `n ≥ 0` and in any build.  A
vector returned by `Vec::_allocate(n)`, `Vec(n)` or `RowVec(n)` has
`length() = n`, one row, `n` columns and a buffer of `n` cells (and the
allocation goes through when the emptiness check is compiled out or the member
`_n_elems` was non-negative); `ColVec::_allocate(n)` and `ColVec(n)` always
return, with `length() = n`, `n` rows, one column and a buffer of `n` cells.
A vector returned by any of the three initializer-list constructors has the
length of the list and ROW shape; one returned by a `Vec`/`RowVec` casted
constructor has the length of the source and row shape, one returned by a
`ColVec` casted constructor the length of the source and column shape.  All of
them satisfy `length = rows*cols`, and every successful `set` keeps that
equation. -/
theorem owning_constructor_shapes {T1 : Type} (conv : T1 → T) (cfg : Config) (junk : Nat → T)
    (this : Vec T) (n : Int) (hn : 0 ≤ n) (l : List T) (s : Vec T1) :
    (∀ v, (Vec._allocate cfg junk this n = Outcome.ok v ∨
          Vec.Vec_elements cfg junk this n = Outcome.ok v ∨
          RowVec.RowVec_elements cfg junk this n = Outcome.ok v) →
        v.length = n ∧ v._n_rows = 1 ∧ v._n_cols = n ∧ v.Owns) ∧
    ((cfg.ORCA_DISABLE_EMPTY_CHECKS = true ∨ 0 ≤ this._n_elems) →
        ∃ v, Vec._allocate cfg junk this n = Outcome.ok v) ∧
    (∃ v, ColVec._allocate cfg junk this n = Outcome.ok v ∧
        ColVec.ColVec_elements cfg junk this n = Outcome.ok v ∧
        v.length = n ∧ v._n_rows = n ∧ v._n_cols = 1 ∧ v.Owns) ∧
    (∀ v, (Vec.Vec_initializer_list cfg junk this l = Outcome.ok v ∨
          RowVec.RowVec_initializer_list cfg junk this l = Outcome.ok v ∨
          ColVec.ColVec_initializer_list cfg junk this l = Outcome.ok v) →
        v.length = (l.length : Int) ∧ v._n_rows = 1 ∧ v._n_cols = (l.length : Int)) ∧
    (∀ v, (Vec.Vec_cast conv cfg junk this s = Outcome.ok v ∨
          Vec.Vec_cast_ptr conv cfg junk this s = Outcome.ok v ∨
          RowVec.RowVec_cast conv cfg junk this s = Outcome.ok v ∨
          RowVec.RowVec_cast_ptr conv cfg junk this s = Outcome.ok v) →
        v.length = s.length ∧ v._n_rows = 1 ∧ v._n_cols = s.length) ∧
    (∀ v, (ColVec.ColVec_cast conv cfg junk this s = Outcome.ok v ∨
          ColVec.ColVec_cast_ptr conv cfg junk this s = Outcome.ok v) →
        v.length = s.length ∧ v._n_rows = s.length ∧ v._n_cols = 1) ∧
    (∀ v, (Vec.Vec_elements cfg junk this n = Outcome.ok v ∨
          RowVec.RowVec_elements cfg junk this n = Outcome.ok v ∨
          ColVec.ColVec_elements cfg junk this n = Outcome.ok v ∨
          Vec.Vec_initializer_list cfg junk this l = Outcome.ok v ∨
          RowVec.RowVec_initializer_list cfg junk this l = Outcome.ok v ∨
          ColVec.ColVec_initializer_list cfg junk this l = Outcome.ok v ∨
          Vec.Vec_cast conv cfg junk this s = Outcome.ok v ∨
          Vec.Vec_cast_ptr conv cfg junk this s = Outcome.ok v ∨
          RowVec.RowVec_cast conv cfg junk this s = Outcome.ok v ∨
          RowVec.RowVec_cast_ptr conv cfg junk this s = Outcome.ok v ∨
          ColVec.ColVec_cast conv cfg junk this s = Outcome.ok v ∨
          ColVec.ColVec_cast_ptr conv cfg junk this s = Outcome.ok v) →
        v.length = v._n_rows * v._n_cols) ∧
    (∀ (v w : Vec T) (i j : Int) (x : T), v.length = v._n_rows * v._n_cols →
        (Vec.set cfg v i x = Outcome.ok w ∨ Vec.set2 cfg v i j x = Outcome.ok w ∨
          ColVec.set cfg v i x = Outcome.ok w ∨ ColVec.set2 cfg v i j x = Outcome.ok w) →
        w.length = w._n_rows * w._n_cols) := by
  have hrow : ∀ (v : Vec T) (k : Int), v._n_elems = k ∧ v._n_rows = 1 ∧ v._n_cols = k →
      v.length = v._n_rows * v._n_cols := by
    rintro v k ⟨a1, a2, a3⟩
    unfold Vec.length
    rw [a1, a2, a3, one_mul]
  have hcol : ∀ (v : Vec T) (k : Int), v._n_elems = k ∧ v._n_rows = k ∧ v._n_cols = 1 →
      v.length = v._n_rows * v._n_cols := by
    rintro v k ⟨a1, a2, a3⟩
    unfold Vec.length
    rw [a1, a2, a3, mul_one]
  have hcells : ((malloc junk n).length : Int) = n := by
    rw [malloc_length]; omega
  have halloc : ∀ v, Vec._allocate cfg junk this n = Outcome.ok v →
      v._n_elems = n ∧ v._n_rows = 1 ∧ v._n_cols = n ∧ v.Owns := by
    intro v h
    rw [Vec._allocate_ok_eq cfg junk this v n h]
    exact ⟨rfl, rfl, rfl, hcells⟩
  have hcalloc : ColVec._allocate cfg junk this n = Outcome.ok ⟨⟨malloc junk n, n, 1⟩, n⟩ := by
    unfold ColVec._allocate
    rw [if_neg (by rintro ⟨_, h⟩; omega)]
  have hlist : ∀ v, Vec.Vec_initializer_list cfg junk this l = Outcome.ok v →
      v._n_elems = (l.length : Int) ∧ v._n_rows = 1 ∧ v._n_cols = (l.length : Int) :=
    fun v h => Vec.Vec_initializer_list_shape cfg junk this v l h
  have hcast : ∀ v, Vec.Vec_cast conv cfg junk this s = Outcome.ok v →
      v._n_elems = s.length ∧ v._n_rows = 1 ∧ v._n_cols = s.length :=
    fun v h => Vec.Vec_cast_shape conv cfg junk this v s h
  have hccast : ∀ v, ColVec.ColVec_cast conv cfg junk this s = Outcome.ok v →
      v._n_elems = s.length ∧ v._n_rows = s.length ∧ v._n_cols = 1 :=
    fun v h => ColVec.ColVec_cast_shape conv cfg junk this v s h
  refine ⟨?_, ?_, ⟨_, hcalloc, hcalloc, rfl, rfl, rfl, hcells⟩, ?_, ?_, ?_, ?_, ?_⟩
  · intro v h
    rcases h with h | h | h <;> exact halloc v h
  · intro hmem
    unfold Vec._allocate
    rw [if_neg (by
      rintro ⟨h1, h2⟩
      rcases hmem with h | h
      · rw [h] at h1; cases h1
      · omega)]
    exact ⟨_, rfl⟩
  · intro v h
    rcases h with h | h | h <;> exact hlist v h
  · intro v h
    rcases h with h | h | h | h <;> exact hcast v h
  · intro v h
    rcases h with h | h <;> exact hccast v h
  · intro v h
    rcases h with h | h | h | h | h | h | h | h | h | h | h | h
    · exact hrow v n ⟨(halloc v h).1, (halloc v h).2.1, (halloc v h).2.2.1⟩
    · exact hrow v n ⟨(halloc v h).1, (halloc v h).2.1, (halloc v h).2.2.1⟩
    · rw [ColVec.ColVec_elements, hcalloc] at h
      simp only [Outcome.ok.injEq] at h
      subst h
      exact hcol _ n ⟨rfl, rfl, rfl⟩
    · exact hrow v _ (hlist v h)
    · exact hrow v _ (hlist v h)
    · exact hrow v _ (hlist v h)
    · exact hrow v _ (hcast v h)
    · exact hrow v _ (hcast v h)
    · exact hrow v _ (hcast v h)
    · exact hrow v _ (hcast v h)
    · exact hcol v _ (hccast v h)
    · exact hcol v _ (hccast v h)
  · intro v w i j x hv h
    have key : w._n_elems = v._n_elems ∧ w._n_rows = v._n_rows ∧ w._n_cols = v._n_cols := by
      rcases h with h | h | h | h
      · exact Vec.set_keeps_shape cfg v w i x h
      · exact Vec.set2_keeps_shape cfg v w i j x h
      · exact Vec.set_keeps_shape cfg v w i x h
      · exact ColVec.set2_shape_kept cfg v w i j x h
    obtain ⟨a1, a2, a3⟩ := key
    unfold Vec.length at hv ⊢
    rw [a1, a2, a3]
    exact hv

/-- C13 (the code at the failing input): with all checks enabled and an
object whose members are zero, the column-oriented vector `ColVec{1,2,3}`
built by `ColVec(std::initializer_list<T>)` has `length() = 3` but one row and
three columns: the constructor delegates to `Vec(std::initializer_list<T>)`,
which allocates through `Vec::_allocate` (row shape), not through
`ColVec::_allocate`.  The column-oriented vectors built for three elements by
`ColVec(3)` and by the `ColVec` casted constructor have three rows and one
column, and so has no `RowVec`.  `length = rows*cols` does hold for all of
them. -/
theorem colvec_initializer_list_row_shape :
    ColVec.ColVec_initializer_list allChecks (fun _ => (0 : Int)) ⟨⟨[], 0, 0⟩, 0⟩ [1, 2, 3]
      = Outcome.ok ⟨⟨[1, 2, 3], 1, 3⟩, 3⟩ ∧
    (⟨⟨[1, 2, 3], 1, 3⟩, 3⟩ : Vec Int).length = 3 ∧
    (⟨⟨[1, 2, 3], 1, 3⟩, 3⟩ : Vec Int)._n_rows = 1 ∧
    (⟨⟨[1, 2, 3], 1, 3⟩, 3⟩ : Vec Int)._n_cols = 3 ∧
    (⟨⟨[1, 2, 3], 1, 3⟩, 3⟩ : Vec Int)._n_rows ≠ 3 ∧
    (⟨⟨[1, 2, 3], 1, 3⟩, 3⟩ : Vec Int)._n_cols ≠ 1 ∧
    ColVec.ColVec_elements allChecks (fun _ => (0 : Int)) ⟨⟨[], 0, 0⟩, 0⟩ 3
      = Outcome.ok ⟨⟨[0, 0, 0], 3, 1⟩, 3⟩ ∧
    ColVec.ColVec_cast (fun x : Int => x) allChecks (fun _ => (0 : Int)) ⟨⟨[], 0, 0⟩, 0⟩
        (Vec.ofCells [1, 2, 3]) = Outcome.ok ⟨⟨[1, 2, 3], 3, 1⟩, 3⟩ ∧
    RowVec.RowVec_initializer_list allChecks (fun _ => (0 : Int)) ⟨⟨[], 0, 0⟩, 0⟩ [1, 2, 3]
      = Outcome.ok ⟨⟨[1, 2, 3], 1, 3⟩, 3⟩ ∧
    RowVec.RowVec_elements allChecks (fun _ => (0 : Int)) ⟨⟨[], 0, 0⟩, 0⟩ 3
      = Outcome.ok ⟨⟨[0, 0, 0], 1, 3⟩, 3⟩ ∧
    (⟨⟨[1, 2, 3], 1, 3⟩, 3⟩ : Vec Int).length
      = (⟨⟨[1, 2, 3], 1, 3⟩, 3⟩ : Vec Int)._n_rows * (⟨⟨[1, 2, 3], 1, 3⟩, 3⟩ : Vec Int)._n_cols := by
  decide

/-! ## C16: the checked and the unchecked build -/

/-- An in-range read of an owning vector does not depend on the build. -/
theorem Vec.at_any_build (cfg1 cfg2 : Config) (v : Vec T) (hv : v.Owns) (i : Int) (h0 : 0 ≤ i)
    (h1 : i < v.length) : Vec.at cfg1 v i = Vec.at cfg2 v i := by
  obtain ⟨x1, c1, e1⟩ := Vec.at_ok_cell cfg1 v hv i h0 h1
  obtain ⟨x2, c2, e2⟩ := Vec.at_ok_cell cfg2 v hv i h0 h1
  rw [c1] at c2
  cases c2
  rw [e1, e2]

/-- An in-range write of an owning vector does not depend on the build. -/
theorem Vec.set_any_build (cfg1 cfg2 : Config) (v : Vec T) (hv : v.Owns) (i : Int) (x : T)
    (h0 : 0 ≤ i) (h1 : i < v.length) : Vec.set cfg1 v i x = Vec.set cfg2 v i x := by
  rw [Vec.set_ok cfg1 v x hv i h0 h1, Vec.set_ok cfg2 v x hv i h0 h1]

/-- On owning vectors of equal length `≥ 1`, `dot` does not depend on the
build. -/
theorem dot_any_build [Mul T] [Add T] (cfg1 cfg2 : Config) (v1 v2 : Vec T) (h1 : v1.Owns)
    (h2 : v2.Owns) (hlen : v1.length = v2.length) (hpos : 1 ≤ v1.length) :
    (dot cfg1 v1 v2 : Outcome T) = dot cfg2 v1 v2 := by
  unfold dot
  rw [if_neg (by rintro ⟨_, h | h⟩ <;> omega), if_neg (by rintro ⟨_, h⟩; exact h hlen),
    if_neg (by rintro ⟨_, h | h⟩ <;> omega), if_neg (by rintro ⟨_, h⟩; exact h hlen)]
  rw [Vec.at_any_build cfg1 cfg2 v1 h1 0 (le_refl _) (by omega),
    Vec.at_any_build cfg1 cfg2 v2 h2 0 (le_refl _) (by omega)]
  congr 1
  funext a0
  congr 1
  funext b0
  unfold forRange
  apply forLoop_congr
  intro i t hi0 hi1
  have hi2 : i < v1.length := by
    have : (0 : Int) ≤ v1.length - 1 := by omega
    rw [Int.toNat_of_nonneg this] at hi1
    omega
  rw [Vec.at_any_build cfg1 cfg2 v1 h1 i (by omega) hi2,
    Vec.at_any_build cfg1 cfg2 v2 h2 i (by omega) (by omega)]

/-- C16: for an owning vector `v`, an in-range index `i` (so `v` is not
empty), a value `x` and a second owning vector `v2` of the same length, the
outcome (returned value or resulting state) of `at(i)`, `set(i, x)`,
`at(0, i)`/`set(0, i, x)` of a row vector, `at(i, 0)`/`set(i, 0, x)` of a
column vector, `sum`, `prod` and `dot` is the same in the build with all
checks enabled and in the build with `ORCA_DISABLE_ERROR_CHECKS`, and the
reads, writes and reductions end normally. -/
theorem checked_unchecked_agree [Zero T] [One T] [Add T] [Mul T] (v v2 : Vec T) (hv : v.Owns)
    (hv2 : v2.Owns) (hlen : v.length = v2.length) (i : Int) (x : T) (hi0 : 0 ≤ i)
    (hi : i < v.length) :
    (Vec.at allChecks v i = Vec.at noChecks v i ∧ ∃ y, Vec.at allChecks v i = Outcome.ok y) ∧
    (Vec.set allChecks v i x = Vec.set noChecks v i x ∧
      ∃ w, Vec.set allChecks v i x = Outcome.ok w) ∧
    ColVec.at allChecks v i = ColVec.at noChecks v i ∧
    ColVec.set allChecks v i x = ColVec.set noChecks v i x ∧
    Vec.at2 allChecks v 0 i = Vec.at2 noChecks v 0 i ∧
    Vec.set2 allChecks v 0 i x = Vec.set2 noChecks v 0 i x ∧
    ColVec.at2 allChecks v i 0 = ColVec.at2 noChecks v i 0 ∧
    ColVec.set2 allChecks v i 0 x = ColVec.set2 noChecks v i 0 x ∧
    (Vec.sum allChecks v = Vec.sum noChecks v ∧ ∃ y, Vec.sum allChecks v = Outcome.ok y) ∧
    (Vec.prod allChecks v = Vec.prod noChecks v ∧ ∃ y, Vec.prod allChecks v = Outcome.ok y) ∧
    ColVec.sum allChecks v = ColVec.sum noChecks v ∧
    ColVec.prod allChecks v = ColVec.prod noChecks v ∧
    sum allChecks v = sum noChecks v ∧
    prod allChecks v = prod noChecks v ∧
    (dot allChecks v v2 : Outcome T) = dot noChecks v v2 := by
  have hat := Vec.at_any_build allChecks noChecks v hv i hi0 hi
  have hset := Vec.set_any_build allChecks noChecks v hv i x hi0 hi
  have hat2 : Vec.at2 allChecks v 0 i = Vec.at2 noChecks v 0 i := by
    unfold Vec.at2
    rw [if_neg (fun h => h.2 rfl), if_neg (fun h => h.2 rfl)]
    exact hat
  have hset2 : Vec.set2 allChecks v 0 i x = Vec.set2 noChecks v 0 i x := by
    unfold Vec.set2
    rw [if_neg (fun h => h.2 rfl), if_neg (fun h => h.2 rfl)]
    exact hset
  have hcat2 : ColVec.at2 allChecks v i 0 = ColVec.at2 noChecks v i 0 := by
    unfold ColVec.at2
    rw [if_neg (fun h => h.2 rfl), if_neg (fun h => h.2 rfl)]
    exact hat
  have hcset2 : ColVec.set2 allChecks v i 0 x = ColVec.set2 noChecks v i 0 x := by
    unfold ColVec.set2
    rw [if_neg (fun h => h.2 rfl), if_neg (fun h => h.2 rfl)]
    exact hset
  have hsum : ∀ cfg, Vec.sum cfg v = Outcome.ok (v._mat.foldl (fun acc y => acc + y) 0) :=
    fun cfg => reduce_loop_ok cfg (fun acc y : T => acc + y) 0 0 v hv
  have hprod : ∀ cfg, Vec.prod cfg v = Outcome.ok (v._mat.foldl (fun acc y => acc * y) 1) :=
    fun cfg => reduce_loop_ok cfg (fun acc y : T => acc * y) 1 1 v hv
  have hs : Vec.sum allChecks v = Vec.sum noChecks v := by rw [hsum, hsum]
  have hp : Vec.prod allChecks v = Vec.prod noChecks v := by rw [hprod, hprod]
  exact ⟨⟨hat, Vec.at_ok_exists allChecks v hv i hi0 hi⟩,
    ⟨hset, _, Vec.set_ok allChecks v x hv i hi0 hi⟩, hat, hset, hat2, hset2, hcat2, hcset2,
    ⟨hs, _, hsum allChecks⟩, ⟨hp, _, hprod allChecks⟩, hs, hp, hs, hp,
    dot_any_build allChecks noChecks v v2 hv hv2 hlen (by omega)⟩

/-- Witness for C16 on the vectors `[1,2,3]` and `[4,5,6]`, index 1. -/
theorem checked_unchecked_agree_witness :
    (Vec.ofCells [1, 2, 3] : Vec Int).Owns ∧ (Vec.ofCells [4, 5, 6] : Vec Int).Owns ∧
    Vec.at allChecks (Vec.ofCells [1, 2, 3] : Vec Int) 1
      = Vec.at noChecks (Vec.ofCells [1, 2, 3] : Vec Int) 1 ∧
    (dot allChecks (Vec.ofCells [1, 2, 3] : Vec Int) (Vec.ofCells [4, 5, 6] : Vec Int)
      : Outcome Int) = dot noChecks (Vec.ofCells [1, 2, 3] : Vec Int) (Vec.ofCells [4, 5, 6]) ∧
    noChecks.ORCA_DISABLE_BOUNDS_CHECKS = true ∧ noChecks.ORCA_DISABLE_EMPTY_CHECKS = true :=
  ⟨by decide, by decide,
    (checked_unchecked_agree (Vec.ofCells [1, 2, 3] : Vec Int) (Vec.ofCells [4, 5, 6])
      (by decide) (by decide) (by decide) 1 9 (by decide) (by decide)).1.1,
    (checked_unchecked_agree (Vec.ofCells [1, 2, 3] : Vec Int) (Vec.ofCells [4, 5, 6])
      (by decide) (by decide) (by decide) 1 9 (by decide) (by decide)).2.2.2.2.2.2.2.2.2.2.2.2.2.2,
    by decide, by decide⟩

/-! ## C17: row and column orientation -/

/-- Whenever an initializer-list constructor returns, the vector it built is
`Vec.ofCells l`. -/
theorem Vec.Vec_initializer_list_eq (cfg : Config) (junk : Nat → T) (this v : Vec T)
    (l : List T) (h : Vec.Vec_initializer_list cfg junk this l = Outcome.ok v) :
    v = Vec.ofCells l := by
  by_cases hc : cfg.ORCA_DISABLE_EMPTY_CHECKS = false ∧ this._n_elems < 0
  · unfold Vec.Vec_initializer_list Vec._allocate at h
    rw [if_pos hc] at h
    cases h
  · have hmem : cfg.ORCA_DISABLE_EMPTY_CHECKS = true ∨ 0 ≤ this._n_elems := by
      cases hE : cfg.ORCA_DISABLE_EMPTY_CHECKS with
      | true => exact Or.inl rfl
      | false =>
        right
        by_contra hneg
        exact hc ⟨hE, by omega⟩
    rw [Vec.Vec_initializer_list_ok cfg junk this l hmem] at h
    simp only [Outcome.ok.injEq] at h
    exact h.symm

/-- C17: the `RowVec` `v` and the `ColVec` `w` built from the same
initializer list `l` (in any build) have the same `length()` (the length of
`l`), the same `at(i)` for every `i` (the `i`-th value of `l` when in range),
the same outcome of `set(i, x)` and of every read after it, the same `sum()`
and `prod()`, the same `dot` with any other vector on either side, and
`v.at(0, i) = w.at(i, 0)` for every `i`. -/
theorem row_col_orientation_agree [Zero T] [One T] [Add T] [Mul T] (cfg : Config)
    (junk1 junk2 : Nat → T) (this1 this2 v w : Vec T) (l : List T)
    (hv : RowVec.RowVec_initializer_list cfg junk1 this1 l = Outcome.ok v)
    (hw : ColVec.ColVec_initializer_list cfg junk2 this2 l = Outcome.ok w) :
    v.length = w.length ∧ v.length = (l.length : Int) ∧
    (∀ i, Vec.at cfg v i = ColVec.at cfg w i) ∧
    (∀ i : Nat, i < l.length → ∃ y, l[i]? = some y ∧ Vec.at cfg v i = Outcome.ok y ∧
        ColVec.at cfg w i = Outcome.ok y) ∧
    (∀ i x, Vec.set cfg v i x = ColVec.set cfg w i x) ∧
    (∀ i x j, (Vec.set cfg v i x).bind (fun v1 => Vec.at cfg v1 j)
        = (ColVec.set cfg w i x).bind (fun w1 => ColVec.at cfg w1 j)) ∧
    Vec.sum cfg v = ColVec.sum cfg w ∧
    Vec.prod cfg v = ColVec.prod cfg w ∧
    (∀ u : Vec T, (dot cfg v u : Outcome T) = dot cfg w u ∧
        (dot cfg u v : Outcome T) = dot cfg u w) ∧
    (∀ i, Vec.at2 cfg v 0 i = ColVec.at2 cfg w i 0) := by
  have ev := Vec.Vec_initializer_list_eq cfg junk1 this1 v l hv
  have ew := Vec.Vec_initializer_list_eq cfg junk2 this2 w l hw
  subst ev ew
  refine ⟨rfl, rfl, fun _ => rfl, ?_, fun _ _ => rfl, fun _ _ _ => rfl, rfl, rfl,
    fun _ => ⟨rfl, rfl⟩, ?_⟩
  · intro i hi
    obtain ⟨y, hy, hat⟩ := Vec.at_ok_cell cfg (Vec.ofCells l) rfl (i : Int) (by omega)
      (by show (i : Int) < (l.length : Int); omega)
    exact ⟨y, by simpa using hy, hat, hat⟩
  · intro i
    unfold Vec.at2 ColVec.at2
    rw [if_neg (fun h => h.2 rfl)]

/-- Witness for C17 on the list `[1,2,3]`. -/
theorem row_col_orientation_agree_witness :
    RowVec.RowVec_initializer_list allChecks (fun _ => (0 : Int)) ⟨⟨[], 0, 0⟩, 0⟩ [1, 2, 3]
      = Outcome.ok (Vec.ofCells [1, 2, 3]) ∧
    ColVec.ColVec_initializer_list allChecks (fun _ => (7 : Int)) ⟨⟨[], 5, 5⟩, 2⟩ [1, 2, 3]
      = Outcome.ok (Vec.ofCells [1, 2, 3]) ∧
    Vec.sum allChecks (Vec.ofCells [1, 2, 3] : Vec Int)
      = ColVec.sum allChecks (Vec.ofCells [1, 2, 3] : Vec Int) ∧
    (∀ i, Vec.at2 allChecks (Vec.ofCells [1, 2, 3] : Vec Int) 0 i
      = ColVec.at2 allChecks (Vec.ofCells [1, 2, 3] : Vec Int) i 0) :=
  ⟨by decide, by decide,
    (row_col_orientation_agree allChecks (fun _ => (0 : Int)) (fun _ => (7 : Int))
      ⟨⟨[], 0, 0⟩, 0⟩ ⟨⟨[], 5, 5⟩, 2⟩ (Vec.ofCells [1, 2, 3]) (Vec.ofCells [1, 2, 3]) [1, 2, 3]
      (by decide) (by decide)).2.2.2.2.2.2.1,
    (row_col_orientation_agree allChecks (fun _ => (0 : Int)) (fun _ => (7 : Int))
      ⟨⟨[], 0, 0⟩, 0⟩ ⟨⟨[], 5, 5⟩, 2⟩ (Vec.ofCells [1, 2, 3]) (Vec.ofCells [1, 2, 3]) [1, 2, 3]
      (by decide) (by decide)).2.2.2.2.2.2.2.2.2⟩

/-! ## C19: reductions over views -/

/-- On a matrix that owns its storage, an in-range `at(row, col)` returns the
cell at `row*cols+col`. -/
theorem Mat.at_in_range_cell (cfg : Config) (d : T) (m : Mat T) (hm : m.Owns) (row col : Int)
    (hr0 : 0 ≤ row) (hr : row < m._n_rows) (hc0 : 0 ≤ col) (hc : col < m._n_cols) :
    Mat.at cfg m row col = Outcome.ok (m._mat.getD (row * m._n_cols + col).toNat d) := by
  obtain ⟨_, _, hlen⟩ := hm
  have h0 : 0 ≤ row * m._n_cols + col := by positivity
  have h1 : row * m._n_cols + col < m._n_rows * m._n_cols := by nlinarith
  unfold Mat.at
  rw [if_neg (by rintro ⟨_, h | h⟩ <;> omega)]
  exact load_ok _ d _ h0 (by omega)

/-- The accumulation loop of `sum`/`prod` over a virtual `at` whose reads at
the indices `0 .. n-1` return the values `a 0 .. a (n-1)` ends normally on
their left fold. -/
theorem reduce_virtual_loop_ok (op : T → T → T) (init : T) (vat : Int → Outcome T)
    (a : Nat → T) (n : Int) (hn : 0 ≤ n)
    (h : ∀ i : Int, 0 ≤ i → i < n → vat i = Outcome.ok (a i.toNat)) :
    forRange 0 n (fun i result => (vat i).bind fun x => Outcome.ok (op result x)) init
    = Outcome.ok ((List.range n.toNat).foldl (fun acc j => op acc (a j)) init) := by
  obtain ⟨r, hr, hP⟩ := forRange_invariant
    (fun i result => (vat i).bind fun x => Outcome.ok (op result x))
    (fun i r => r = (List.range i.toNat).foldl (fun acc j => op acc (a j)) init)
    0 n init hn (by simp)
    (by
      intro i r hi0 hi hr
      refine ⟨op r (a i.toNat), ?_, ?_⟩
      · simp only []
        rw [h i hi0 hi, Outcome.bind_ok]
      · have h1 : (i + 1).toNat = i.toNat + 1 := by omega
        show _ = (List.range (i + 1).toNat).foldl (fun acc j => op acc (a j)) init
        rw [h1, List.range_succ, List.foldl_append, hr]
        rfl)
  rw [hr, hP]

/-- C19: for a matrix `m` that owns its storage (`R` rows, `C` columns), in
any build: the row view of an in-range row `r` (pointer constructor) has
`sum()` equal to `0 + m.at(r,0) + ... + m.at(r,C-1)` and `prod()` equal to
`1 * m.at(r,0) * ... * m.at(r,C-1)`, and the column view of an in-range column
`c` has `sum()` and `prod()` equal to the same folds of `m.at(0,c)`, ...,
`m.at(R-1,c)`; every read returns a cell and nothing is thrown. -/
theorem view_sum_prod [Zero T] [One T] [Add T] [Mul T] (cfg : Config) (this1 this2 : Vec T)
    (m : Mat T) (hm : m.Owns) (r c : Int) :
    (0 ≤ r → r < m.rows →
      (∀ j : Nat, (j : Int) < m.cols →
        Mat.at cfg m r j = Outcome.ok (m._mat.getD (r * m._n_cols + (j : Int)).toNat 0)) ∧
      MatRow.sum cfg (MatRow.MatRow_ptr this1 m r) m
        = Outcome.ok ((List.range m.cols.toNat).foldl
            (fun (acc : T) (j : Nat) => acc + m._mat.getD (r * m._n_cols + (j : Int)).toNat 0) 0) ∧
      MatRow.prod cfg (MatRow.MatRow_ptr this1 m r) m
        = Outcome.ok ((List.range m.cols.toNat).foldl
            (fun (acc : T) (j : Nat) => acc * m._mat.getD (r * m._n_cols + (j : Int)).toNat 0) 1)) ∧
    (0 ≤ c → c < m.cols →
      (∀ i : Nat, (i : Int) < m.rows →
        Mat.at cfg m i c = Outcome.ok (m._mat.getD ((i : Int) * m._n_cols + c).toNat 0)) ∧
      MatCol.sum cfg (MatCol.MatCol_ptr this2 m c) m
        = Outcome.ok ((List.range m.rows.toNat).foldl
            (fun (acc : T) (i : Nat) => acc + m._mat.getD ((i : Int) * m._n_cols + c).toNat 0) 0) ∧
      MatCol.prod cfg (MatCol.MatCol_ptr this2 m c) m
        = Outcome.ok ((List.range m.rows.toNat).foldl
            (fun (acc : T) (i : Nat) => acc * m._mat.getD ((i : Int) * m._n_cols + c).toNat 0) 1)) := by
  have hR : 0 ≤ m._n_rows := hm.1
  have hC : 0 ≤ m._n_cols := hm.2.1
  constructor
  · intro hr0 hr
    have hread : ∀ i : Int, 0 ≤ i → i < m._n_cols →
        MatRow.at cfg (MatRow.MatRow_ptr this1 m r) m i
          = Outcome.ok (m._mat.getD (r * m._n_cols + ((i.toNat : Nat) : Int)).toNat 0) := by
      intro i hi0 hi
      rw [Int.toNat_of_nonneg hi0]
      exact Mat.at_in_range_cell cfg 0 m hm r i hr0 hr hi0 hi
    refine ⟨?_, ?_, ?_⟩
    · intro j hj
      exact Mat.at_in_range_cell cfg 0 m hm r j hr0 hr (by omega) hj
    · exact reduce_virtual_loop_ok (fun acc x : T => acc + x) 0 _
        (fun j => m._mat.getD (r * m._n_cols + (j : Int)).toNat 0) m._n_cols hC hread
    · exact reduce_virtual_loop_ok (fun acc x : T => acc * x) 1 _
        (fun j => m._mat.getD (r * m._n_cols + (j : Int)).toNat 0) m._n_cols hC hread
  · intro hc0 hc
    have hread : ∀ i : Int, 0 ≤ i → i < m._n_rows →
        MatCol.at cfg (MatCol.MatCol_ptr this2 m c) m i
          = Outcome.ok (m._mat.getD (((i.toNat : Nat) : Int) * m._n_cols + c).toNat 0) := by
      intro i hi0 hi
      rw [Int.toNat_of_nonneg hi0]
      exact Mat.at_in_range_cell cfg 0 m hm i c hi0 hi hc0 hc
    refine ⟨?_, ?_, ?_⟩
    · intro i hi
      exact Mat.at_in_range_cell cfg 0 m hm i c (by omega) hi hc0 hc
    · exact reduce_virtual_loop_ok (fun acc x : T => acc + x) 0 _
        (fun i => m._mat.getD ((i : Int) * m._n_cols + c).toNat 0) m._n_rows hR hread
    · exact reduce_virtual_loop_ok (fun acc x : T => acc * x) 1 _
        (fun i => m._mat.getD ((i : Int) * m._n_cols + c).toNat 0) m._n_rows hR hread

/-- Witness for C19: the 2x3 matrix `[[1,2,3],[4,5,6]]`, row 1 (sum 15,
product 120) and column 2 (sum 9, product 18). -/
theorem view_sum_prod_witness :
    (⟨[1, 2, 3, 4, 5, 6], 2, 3⟩ : Mat Int).Owns ∧
    MatRow.sum allChecks (MatRow.MatRow_ptr ⟨⟨[], 0, 0⟩, 0⟩ (⟨[1, 2, 3, 4, 5, 6], 2, 3⟩ : Mat Int) 1)
      ⟨[1, 2, 3, 4, 5, 6], 2, 3⟩ = Outcome.ok 15 ∧
    MatRow.prod allChecks (MatRow.MatRow_ptr ⟨⟨[], 0, 0⟩, 0⟩ (⟨[1, 2, 3, 4, 5, 6], 2, 3⟩ : Mat Int) 1)
      ⟨[1, 2, 3, 4, 5, 6], 2, 3⟩ = Outcome.ok 120 ∧
    MatCol.sum allChecks (MatCol.MatCol_ptr ⟨⟨[], 0, 0⟩, 0⟩ (⟨[1, 2, 3, 4, 5, 6], 2, 3⟩ : Mat Int) 2)
      ⟨[1, 2, 3, 4, 5, 6], 2, 3⟩ = Outcome.ok 9 ∧
    MatCol.prod allChecks (MatCol.MatCol_ptr ⟨⟨[], 0, 0⟩, 0⟩ (⟨[1, 2, 3, 4, 5, 6], 2, 3⟩ : Mat Int) 2)
      ⟨[1, 2, 3, 4, 5, 6], 2, 3⟩ = Outcome.ok 18 :=
  ⟨⟨by decide, by decide, by decide⟩,
    ((view_sum_prod allChecks ⟨⟨[], 0, 0⟩, 0⟩ ⟨⟨[], 0, 0⟩, 0⟩ (⟨[1, 2, 3, 4, 5, 6], 2, 3⟩ : Mat Int)
      ⟨by decide, by decide, by decide⟩ 1 2).1 (by decide) (by decide)).2.1.trans (by decide),
    ((view_sum_prod allChecks ⟨⟨[], 0, 0⟩, 0⟩ ⟨⟨[], 0, 0⟩, 0⟩ (⟨[1, 2, 3, 4, 5, 6], 2, 3⟩ : Mat Int)
      ⟨by decide, by decide, by decide⟩ 1 2).1 (by decide) (by decide)).2.2.trans (by decide),
    ((view_sum_prod allChecks ⟨⟨[], 0, 0⟩, 0⟩ ⟨⟨[], 0, 0⟩, 0⟩ (⟨[1, 2, 3, 4, 5, 6], 2, 3⟩ : Mat Int)
      ⟨by decide, by decide, by decide⟩ 1 2).2 (by decide) (by decide)).2.1.trans (by decide),
    ((view_sum_prod allChecks ⟨⟨[], 0, 0⟩, 0⟩ ⟨⟨[], 0, 0⟩, 0⟩ (⟨[1, 2, 3, 4, 5, 6], 2, 3⟩ : Mat Int)
      ⟨by decide, by decide, by decide⟩ 1 2).2 (by decide) (by decide)).2.2.trans (by decide)⟩

/-! ## C20: symmetry of `dot` -/

/-- A read of a buffer cell returns a value or is undefined; it never throws. -/
theorem load_ok_or_undefined (buf : List T) (p : Int) :
    (∃ x, load buf p = Outcome.ok x) ∨ load buf p = Outcome.undefined := by
  unfold load
  split
  · split
    · exact Or.inl ⟨_, rfl⟩
    · exact Or.inr rfl
  · exact Or.inr rfl

/-- Reading the same index of two vectors in either order gives the same
outcome, when the bounds check is compiled out or the lengths are equal. -/
theorem Vec.at_pair_swap {β : Type} (cfg : Config) (v1 v2 : Vec T)
    (h : cfg.ORCA_DISABLE_BOUNDS_CHECKS = true ∨ v1.length = v2.length) (i : Int)
    (F : T → T → Outcome β) :
    ((Vec.at cfg v1 i).bind fun a => (Vec.at cfg v2 i).bind fun b => F a b)
    = ((Vec.at cfg v2 i).bind fun b => (Vec.at cfg v1 i).bind fun a => F a b) := by
  unfold Vec.at Vec._address
  by_cases hc : cfg.ORCA_DISABLE_BOUNDS_CHECKS = false ∧ (i < 0 ∨ i > v1.length)
  · have hlen : v1.length = v2.length := by
      rcases h with h | h
      · rw [h] at hc; cases hc.1
      · exact h
    have hc2 : cfg.ORCA_DISABLE_BOUNDS_CHECKS = false ∧ (i < 0 ∨ i > v2.length) := by
      rw [← hlen]; exact hc
    rw [if_pos hc, if_pos hc2]
    rfl
  · have hc2 : ¬(cfg.ORCA_DISABLE_BOUNDS_CHECKS = false ∧ (i < 0 ∨ i > v2.length)) := by
      intro hc2
      apply hc
      rcases h with h | h
      · rw [h] at hc2; cases hc2.1
      · rw [h]; exact hc2
    rw [if_neg hc, if_neg hc2]
    simp only [Outcome.bind_ok]
    rcases load_ok_or_undefined v1._mat i with ⟨x1, e1⟩ | e1 <;>
      rcases load_ok_or_undefined v2._mat i with ⟨x2, e2⟩ | e2 <;>
      rw [e1, e2] <;> rfl

/-- C20: over a commutative semiring, `dot(v1, v2)` and `dot(v2, v1)` have
the same outcome (the same exception, the same value, or both undefined) in
every build with the bounds switch off, in particular with all checks
enabled, and in any build when the two lengths are equal. -/
theorem dot_symmetric [CommSemiring T] (cfg : Config) (v1 v2 : Vec T)
    (h : cfg.ORCA_DISABLE_BOUNDS_CHECKS = false ∨ v1.length = v2.length) :
    (dot cfg v1 v2 : Outcome T) = dot cfg v2 v1 := by
  unfold dot
  by_cases hE : cfg.ORCA_DISABLE_EMPTY_CHECKS = false ∧ (v1.length = 0 ∨ v2.length = 0)
  · have hE2 : cfg.ORCA_DISABLE_EMPTY_CHECKS = false ∧ (v2.length = 0 ∨ v1.length = 0) :=
      ⟨hE.1, hE.2.symm⟩
    rw [if_pos hE, if_pos hE2]
  · have hE2 : ¬(cfg.ORCA_DISABLE_EMPTY_CHECKS = false ∧ (v2.length = 0 ∨ v1.length = 0)) :=
      fun hc => hE ⟨hc.1, hc.2.symm⟩
    rw [if_neg hE, if_neg hE2]
    by_cases hlen : v1.length = v2.length
    · have hD : ¬(cfg.ORCA_DISABLE_BOUNDS_CHECKS = false ∧ v1.length ≠ v2.length) :=
        fun hc => hc.2 hlen
      have hD2 : ¬(cfg.ORCA_DISABLE_BOUNDS_CHECKS = false ∧ v2.length ≠ v1.length) :=
        fun hc => hc.2 hlen.symm
      rw [if_neg hD, if_neg hD2]
      rw [Vec.at_pair_swap cfg v1 v2 (Or.inr hlen) 0]
      congr 1
      funext b0
      congr 1
      funext a0
      rw [hlen, mul_comm a0 b0]
      congr 1
      funext i result
      rw [Vec.at_pair_swap cfg v1 v2 (Or.inr hlen) i]
      congr 1
      funext b
      congr 1
      funext a
      rw [mul_comm a b]
    · have hB : cfg.ORCA_DISABLE_BOUNDS_CHECKS = false := by
        rcases h with h | h
        · exact h
        · exact absurd h hlen
      have hD : cfg.ORCA_DISABLE_BOUNDS_CHECKS = false ∧ v1.length ≠ v2.length := ⟨hB, hlen⟩
      have hD2 : cfg.ORCA_DISABLE_BOUNDS_CHECKS = false ∧ v2.length ≠ v1.length :=
        ⟨hB, fun hc => hlen hc.symm⟩
      rw [if_pos hD, if_pos hD2]

/-- Witness for C20 on `[1,2,3]` and `[4,5,6]` (both orders give 32) and on
vectors of lengths 2 and 3 (both orders throw `BadDimensionsError`). -/
theorem dot_symmetric_witness :
    allChecks.ORCA_DISABLE_BOUNDS_CHECKS = false ∧
    (dot allChecks (Vec.ofCells [1, 2, 3] : Vec Int) (Vec.ofCells [4, 5, 6] : Vec Int)
      : Outcome Int) = dot allChecks (Vec.ofCells [4, 5, 6] : Vec Int) (Vec.ofCells [1, 2, 3]) ∧
    (dot allChecks (Vec.ofCells [4, 5, 6] : Vec Int) (Vec.ofCells [1, 2, 3] : Vec Int)
      : Outcome Int) = Outcome.ok 32 ∧
    (dot allChecks (Vec.ofCells [1, 2] : Vec Int) (Vec.ofCells [4, 5, 6] : Vec Int)
      : Outcome Int) = dot allChecks (Vec.ofCells [4, 5, 6] : Vec Int) (Vec.ofCells [1, 2]) ∧
    (dot allChecks (Vec.ofCells [4, 5, 6] : Vec Int) (Vec.ofCells [1, 2] : Vec Int)
      : Outcome Int) = Outcome.raise ORCAExcept.BadDimensionsError :=
  ⟨by decide,
    dot_symmetric allChecks (Vec.ofCells [1, 2, 3] : Vec Int) (Vec.ofCells [4, 5, 6])
      (Or.inl (by decide)),
    by decide,
    dot_symmetric allChecks (Vec.ofCells [1, 2] : Vec Int) (Vec.ofCells [4, 5, 6])
      (Or.inl (by decide)),
    by decide⟩

/-! ## C21: rejected writes -/

/-- The run of `set(index, elem)` shows the caller the outcome of `Vec.set`. -/
theorem Vec.set_run_outcome (cfg : Config) (v : Vec T) (i : Int) (x : T) :
    (Vec.set_run cfg v i x).outcome = Vec.set cfg v i x := by
  unfold Vec.set_run Vec.set
  cases Vec._address cfg v i with
  | raise e => rfl
  | undefined => rfl
  | ok p =>
    simp only [Outcome.bind_ok]
    cases store v._mat p x <;> rfl

/-- The run of `set(row, col, elem)` of a `Vec`/`RowVec` shows the caller the
outcome of `Vec.set2`. -/
theorem Vec.set2_run_outcome (cfg : Config) (v : Vec T) (row col : Int) (x : T) :
    (Vec.set2_run cfg v row col x).outcome = Vec.set2 cfg v row col x := by
  unfold Vec.set2_run Vec.set2
  split
  · rfl
  · exact Vec.set_run_outcome cfg v col x

/-- The run of `set(row, col, elem)` of a `ColVec` shows the caller the
outcome of `ColVec.set2`. -/
theorem ColVec.set2_run_shows_outcome (cfg : Config) (v : Vec T) (row col : Int) (x : T) :
    (ColVec.set2_run cfg v row col x).outcome = ColVec.set2 cfg v row col x := by
  unfold ColVec.set2_run ColVec.set2
  split
  · rfl
  · exact Vec.set_run_outcome cfg v row x

/-- Whenever a run of `set(index, elem)` ends with an exception, the object
is in the state it had before the call. -/
theorem Vec.set_run_thrown_state (cfg : Config) (v s : Vec T) (i : Int) (x : T) (e : ORCAExcept)
    (h : Vec.set_run cfg v i x = Run.thrown e s) : s = v := by
  unfold Vec.set_run at h
  cases ha : Vec._address cfg v i with
  | raise e1 =>
    rw [ha] at h
    simp only [Run.thrown.injEq] at h
    exact h.2.symm
  | undefined => rw [ha] at h; cases h
  | ok p =>
    rw [ha] at h
    simp only at h
    cases hs : store v._mat p x with
    | ok buf => rw [hs] at h; cases h
    | raise e1 =>
      rw [hs] at h
      simp only [Run.thrown.injEq] at h
      exact h.2.symm
    | undefined => rw [hs] at h; cases h

/-- C21: in a build with the bounds checks compiled in, for every vector `v`
(row- or column-oriented): whenever `v.set(i, x)` or `v.set(row, col, x)`
ends with `OutOfBoundsError`, the object at the end of the call has the cells,
the length and the shape (rows, cols) it had before the call; the runs show
the caller exactly the outcomes of `set`, and the writes with `i < 0`,
`i > length()`, `row ≠ 0` (row vector) or `col ≠ 0` (column vector) are such
rejected writes. -/
theorem rejected_write_atomic (cfg : Config) (hB : cfg.ORCA_DISABLE_BOUNDS_CHECKS = false)
    (v : Vec T) (i row col : Int) (x : T) :
    (∀ s, (Vec.set_run cfg v i x = Run.thrown ORCAExcept.OutOfBoundsError s ∨
          Vec.set2_run cfg v row col x = Run.thrown ORCAExcept.OutOfBoundsError s ∨
          ColVec.set_run cfg v i x = Run.thrown ORCAExcept.OutOfBoundsError s ∨
          ColVec.set2_run cfg v row col x = Run.thrown ORCAExcept.OutOfBoundsError s) →
        s._mat = v._mat ∧ s.length = v.length ∧ s._n_rows = v._n_rows ∧
          s._n_cols = v._n_cols) ∧
    ((Vec.set_run cfg v i x).outcome = Vec.set cfg v i x ∧
      (Vec.set2_run cfg v row col x).outcome = Vec.set2 cfg v row col x ∧
      (ColVec.set_run cfg v i x).outcome = ColVec.set cfg v i x ∧
      (ColVec.set2_run cfg v row col x).outcome = ColVec.set2 cfg v row col x) ∧
    ((i < 0 ∨ i > v.length) →
      Vec.set_run cfg v i x = Run.thrown ORCAExcept.OutOfBoundsError v ∧
      ColVec.set_run cfg v i x = Run.thrown ORCAExcept.OutOfBoundsError v) ∧
    (row ≠ 0 → Vec.set2_run cfg v row col x = Run.thrown ORCAExcept.OutOfBoundsError v) ∧
    (col ≠ 0 → ColVec.set2_run cfg v row col x = Run.thrown ORCAExcept.OutOfBoundsError v) := by
  refine ⟨?_, ⟨Vec.set_run_outcome cfg v i x, Vec.set2_run_outcome cfg v row col x,
    Vec.set_run_outcome cfg v i x, ColVec.set2_run_shows_outcome cfg v row col x⟩, ?_, ?_, ?_⟩
  · intro s h
    have hs : s = v := by
      rcases h with h | h | h | h
      · exact Vec.set_run_thrown_state cfg v s i x _ h
      · unfold Vec.set2_run at h
        split at h
        · simp only [Run.thrown.injEq] at h
          exact h.2.symm
        · exact Vec.set_run_thrown_state cfg v s col x _ h
      · exact Vec.set_run_thrown_state cfg v s i x _ h
      · unfold ColVec.set2_run at h
        split at h
        · simp only [Run.thrown.injEq] at h
          exact h.2.symm
        · exact Vec.set_run_thrown_state cfg v s row x _ h
    subst hs
    exact ⟨rfl, rfl, rfl, rfl⟩
  · intro h
    have ha := (Vec._address_raise_iff cfg hB v i).2 h
    constructor
    · unfold Vec.set_run; rw [ha]
    · unfold ColVec.set_run; rw [ha]
  · intro h
    have hc : cfg.ORCA_DISABLE_BOUNDS_CHECKS = false ∧ row ≠ 0 := ⟨hB, h⟩
    unfold Vec.set2_run
    rw [if_pos hc]
  · intro h
    have hc : cfg.ORCA_DISABLE_BOUNDS_CHECKS = false ∧ col ≠ 0 := ⟨hB, h⟩
    unfold ColVec.set2_run
    rw [if_pos hc]

/-- Witness for C21 on the vector `[1,2,3]`: the writes `set(5, 9)`,
`set(-1, 9)` and `set(1, 0, 9)` are rejected and leave `[1,2,3]`. -/
theorem rejected_write_atomic_witness :
    allChecks.ORCA_DISABLE_BOUNDS_CHECKS = false ∧
    Vec.set allChecks (Vec.ofCells [1, 2, 3] : Vec Int) 5 9
      = Outcome.raise ORCAExcept.OutOfBoundsError ∧
    Vec.set_run allChecks (Vec.ofCells [1, 2, 3] : Vec Int) 5 9
      = Run.thrown ORCAExcept.OutOfBoundsError (Vec.ofCells [1, 2, 3]) ∧
    ColVec.set_run allChecks (Vec.ofCells [1, 2, 3] : Vec Int) (-1) 9
      = Run.thrown ORCAExcept.OutOfBoundsError (Vec.ofCells [1, 2, 3]) ∧
    Vec.set2_run allChecks (Vec.ofCells [1, 2, 3] : Vec Int) 1 0 9
      = Run.thrown ORCAExcept.OutOfBoundsError (Vec.ofCells [1, 2, 3]) ∧
    ((Vec.ofCells [1, 2, 3] : Vec Int)._mat = (Vec.ofCells [1, 2, 3] : Vec Int)._mat ∧
      (Vec.ofCells [1, 2, 3] : Vec Int).length = (Vec.ofCells [1, 2, 3] : Vec Int).length ∧
      (Vec.ofCells [1, 2, 3] : Vec Int)._n_rows = (Vec.ofCells [1, 2, 3] : Vec Int)._n_rows ∧
      (Vec.ofCells [1, 2, 3] : Vec Int)._n_cols = (Vec.ofCells [1, 2, 3] : Vec Int)._n_cols) :=
  ⟨by decide, by decide,
    ((rejected_write_atomic allChecks (by decide) (Vec.ofCells [1, 2, 3] : Vec Int) 5 1 0 9).2.2.1
      (Or.inr (by decide))).1,
    ((rejected_write_atomic allChecks (by decide) (Vec.ofCells [1, 2, 3] : Vec Int) (-1) 1 0
      9).2.2.1 (Or.inl (by decide))).2,
    (rejected_write_atomic allChecks (by decide) (Vec.ofCells [1, 2, 3] : Vec Int) 5 1 0 9).2.2.2.1
      (by decide),
    (rejected_write_atomic allChecks (by decide) (Vec.ofCells [1, 2, 3] : Vec Int) 5 1 0 9).1
      (Vec.ofCells [1, 2, 3]) (Or.inl (by decide))⟩

end ORCA
